import Mathlib

/-!
Shallow embedding of the peer-to-peer signaling and connection-management
layer of the video-meeting application (module `src/lib/webrtc.ts`,
class `WebRTCManager`).

The manager is single-threaded and event-driven: every broadcast message,
presence event, connection-state callback and public API call is modelled
as an `Event`, and the class methods become a pure step function
`step : Env -> ManagerState -> Event -> ManagerState × List Action`.
Externally visible effects (messages sent on the signaling channel,
UI callbacks, closing transports, stopping tracks, console.error) are
recorded as `Action`s in the order the source performs them.

External fallible operations (createOffer / setRemoteDescription /
addIceCandidate and getUserMedia) are modelled by an environment record
whose flags say whether the underlying browser call succeeds.
-/

namespace WebRTC

/-- An ICE candidate payload (carried opaquely by the source). -/
structure IceCandidate where
  cand : String
deriving DecidableEq, Repr

/-- A session description (offer or answer SDP, carried opaquely). -/
structure SessionDesc where
  sdp : String
deriving DecidableEq, Repr

/-- A local media track: `kind` is "audio" or "video"; `stopped` records
whether `track.stop()` has been called; `enabled` mirrors `track.enabled`. -/
structure MediaTrack where
  kind : String
  enabled : Bool
  stopped : Bool
deriving DecidableEq, Repr

/-- One entry of the `peers : Map<string, PeerConnection>` of the source.
`sessionId` is a generation tag: each `new RTCPeerConnection` gets a fresh
one, so a torn-down-and-recreated session is distinguishable from the old
one. `remoteDescription` mirrors `peer.remoteDescription`;
`appliedCandidates` records the candidates successfully passed to
`addIceCandidate`. -/
structure PeerConnection where
  peerId : String
  name : String
  sessionId : Nat
  remoteDescription : Option SessionDesc
  localDescription : Option SessionDesc
  appliedCandidates : List IceCandidate
  hasDataChannel : Bool
deriving DecidableEq, Repr

/-- The mutable fields of `WebRTCManager`. `heartbeatActive` mirrors
`heartbeatInterval !== null`; `subscribed` mirrors the signaling channel
subscription being live; `nextSessionId` feeds fresh generation tags. -/
structure ManagerState where
  meetingId : String
  participantId : String
  participantName : String
  peers : List PeerConnection
  isInitialized : Bool
  reconnectAttempts : Nat
  maxReconnectAttempts : Nat
  heartbeatActive : Bool
  subscribed : Bool
  localStream : Option (List MediaTrack)
  nextSessionId : Nat
deriving DecidableEq, Repr

/-- Externally visible effects, in source order. `send*` are broadcasts on
the signaling channel, `cb*` are the UI callbacks, `logError` is
`console.error`, `scheduleReconnect` is the `setTimeout` that will re-run
`createPeerConnection` (carrying the attempt number). -/
inductive Action where
  | sendOffer (sender target name : String)
  | sendAnswer (sender target name : String)
  | sendUserJoined (participantId name : String)
  | sendUserLeft (participantId : String)
  | sendHandRaised (participantId name : String) (raised : Bool)
  | sendHeartbeat (participantId : String)
  | presenceTrack (participantId name : String)
  | cbPeerLeft (peerId : String)
  | cbHandRaised (participantId name : String) (raised : Bool)
  | peerClosed (peerId : String) (sessionId : Nat)
  | dataChannelClosed (peerId : String) (sessionId : Nat)
  | sessionCreated (peerId : String) (sessionId : Nat) (isInitiator : Bool)
  | scheduleReconnect (peerId name : String) (attempt : Nat)
  | heartbeatCancelled
  | trackStopped (kind : String)
  | unsubscribed
  | logError (msg : String)
deriving DecidableEq, Repr

/-- Success/failure of the fallible browser-side negotiation calls. -/
structure Env where
  createOfferOk : Bool
  setRemoteOfferOk : Bool
  setRemoteAnswerOk : Bool
  addIceCandidateOk : Bool
deriving DecidableEq, Repr

/-- `this.peers.get(id)`. -/
def peersGet (ps : List PeerConnection) (id : String) : Option PeerConnection :=
  ps.find? (fun pc => pc.peerId = id)

/-- `this.peers.delete(id)`. -/
def peersDelete (ps : List PeerConnection) (id : String) : List PeerConnection :=
  ps.filter (fun pc => pc.peerId ≠ id)

/-- In-place update of the entry with key `id` (mutation of the stored
`PeerConnection` object in the source). -/
def peersUpdate (ps : List PeerConnection) (id : String)
    (f : PeerConnection → PeerConnection) : List PeerConnection :=
  ps.map (fun pc => if pc.peerId = id then f pc else pc)

/-- The keys of the peer map. -/
def keysOf (ps : List PeerConnection) : List String :=
  ps.map (fun pc => pc.peerId)

/-- State after `new WebRTCManager(...)`: the constructor stores the ids,
calls `setupSignaling()` (subscribes the channel) and `startHeartbeat()`. -/
def mkManager (meetingId participantId participantName : String) : ManagerState :=
  { meetingId := meetingId
    participantId := participantId
    participantName := participantName
    peers := []
    isInitialized := false
    reconnectAttempts := 0
    maxReconnectAttempts := 5
    heartbeatActive := true
    subscribed := true
    localStream := none
    nextSessionId := 0 }

/-- The session object as first constructed: fresh transport and data
channel, no descriptions, no candidates. -/
def freshSession (p nm : String) (sid : Nat) : PeerConnection :=
  { peerId := p, name := nm, sessionId := sid,
    remoteDescription := none, localDescription := none,
    appliedCandidates := [], hasDataChannel := true }

/-- `setLocalDescription(offer)` on the initiator side. -/
def setLocalOffer (q : PeerConnection) : PeerConnection :=
  { q with localDescription := some (SessionDesc.mk "offer") }

/-- `setRemoteDescription(offer)` followed by `setLocalDescription(answer)`
on the responder side. -/
def setNegotiated (offer : SessionDesc) (q : PeerConnection) : PeerConnection :=
  { q with remoteDescription := some offer,
           localDescription := some (SessionDesc.mk "answer") }

/-- `setRemoteDescription(answer)` on the initiator side. -/
def setRemoteAnswer (answer : SessionDesc) (q : PeerConnection) : PeerConnection :=
  { q with remoteDescription := some answer }

/-- A successful `addIceCandidate(c)`. -/
def addCandidate (c : IceCandidate) (q : PeerConnection) : PeerConnection :=
  { q with appliedCandidates := q.appliedCandidates ++ [c] }

/-- `createPeerConnection(peerId, name, isInitiator)`: no-op when a session
already exists; otherwise builds the connection and data channel, stores the
session, and (initiator only) creates/sends the offer, deleting the session
if offer creation fails. -/
def createPeerConnection (env : Env) (st : ManagerState)
    (peerId name : String) (isInitiator : Bool) : ManagerState × List Action :=
  if (peersGet st.peers peerId).isSome then (st, [])
  else
    let sid := st.nextSessionId
    let st1 := { st with peers := st.peers ++ [freshSession peerId name sid],
                         nextSessionId := sid + 1 }
    if isInitiator then
      if env.createOfferOk then
        ({ st1 with peers := peersUpdate st1.peers peerId setLocalOffer },
         [Action.sessionCreated peerId sid isInitiator,
          Action.sendOffer st.participantId peerId st.participantName])
      else
        ({ st1 with peers := peersDelete st1.peers peerId },
         [Action.sessionCreated peerId sid isInitiator,
          Action.logError "Error creating offer"])
    else (st1, [Action.sessionCreated peerId sid isInitiator])

/-- `handleUserJoined`: ignores the local participant's own announcement,
otherwise (after a 100ms delay, merged here) creates an initiator session. -/
def handleUserJoined (env : Env) (st : ManagerState)
    (id nm : String) : ManagerState × List Action :=
  if id = st.participantId then (st, [])
  else createPeerConnection env st id nm true

/-- `handleUserLeft`: closes and removes the session if present and fires
the peer-left callback. -/
def handleUserLeft (st : ManagerState) (id : String) : ManagerState × List Action :=
  match peersGet st.peers id with
  | some pc =>
      ({ st with peers := peersDelete st.peers id },
       [Action.peerClosed id pc.sessionId, Action.cbPeerLeft id])
  | none => (st, [])

/-- `handleHandRaised`: fires the callback only for remote participants. -/
def handleHandRaised (st : ManagerState) (id nm : String)
    (raised : Bool) : ManagerState × List Action :=
  if id ≠ st.participantId then (st, [Action.cbHandRaised id nm raised])
  else (st, [])

/-- `raiseHand(raised)`: broadcasts the hand-raised message. -/
def raiseHand (st : ManagerState) (raised : Bool) : ManagerState × List Action :=
  (st, [Action.sendHandRaised st.participantId st.participantName raised])

/-- `handleHeartbeat`: a heartbeat from a currently-known peer resets the
manager-wide reconnect counter. -/
def handleHeartbeat (st : ManagerState) (id : String) : ManagerState × List Action :=
  if (peersGet st.peers id).isSome then ({ st with reconnectAttempts := 0 }, [])
  else (st, [])

/-- One tick of the 10s heartbeat interval (only fires while active). -/
def heartbeatTick (st : ManagerState) : ManagerState × List Action :=
  if st.heartbeatActive then (st, [Action.sendHeartbeat st.participantId])
  else (st, [])

/-- `handleConnectionFailure`: at the attempt cap the peer is removed and
the peer-left callback fires; below the cap the counter is incremented, the
existing connection is closed and removed, and a reconnection
`createPeerConnection` is scheduled via `setTimeout`. -/
def handleConnectionFailure (st : ManagerState)
    (peerId name : String) : ManagerState × List Action :=
  if st.maxReconnectAttempts ≤ st.reconnectAttempts then
    ({ st with peers := peersDelete st.peers peerId }, [Action.cbPeerLeft peerId])
  else
    let attempts := st.reconnectAttempts + 1
    match peersGet st.peers peerId with
    | some pc =>
        ({ st with reconnectAttempts := attempts, peers := peersDelete st.peers peerId },
         [Action.peerClosed peerId pc.sessionId,
          Action.scheduleReconnect peerId name attempts])
    | none =>
        ({ st with reconnectAttempts := attempts },
         [Action.scheduleReconnect peerId name attempts])

/-- The cleanup at the top of `handleOffer`: any existing session for the
sender is closed and removed. -/
def offerCleanup (st : ManagerState) (sender : String) : ManagerState × List Action :=
  match peersGet st.peers sender with
  | some pc => ({ st with peers := peersDelete st.peers sender },
                [Action.peerClosed sender pc.sessionId])
  | none => (st, [])

/-- The negotiation at the bottom of `handleOffer`: the remote offer is
applied and an answer created/sent; on failure the session is deleted
(catch branch of `handleOffer`). -/
def offerApply (env : Env) (selfId selfName : String) (st2 : ManagerState)
    (sender : String) (offer : SessionDesc) : ManagerState × List Action :=
  if (peersGet st2.peers sender).isSome then
    if env.setRemoteOfferOk then
      ({ st2 with peers := peersUpdate st2.peers sender (setNegotiated offer) },
       [Action.sendAnswer selfId sender selfName])
    else
      ({ st2 with peers := peersDelete st2.peers sender },
       [Action.logError "Error handling offer"])
  else (st2, [])

/-- `handleOffer`: ignores offers not addressed to self; closes and removes
any existing session for the sender, creates a responder session, applies
the remote description and answers; on failure the session is deleted. -/
def handleOffer (env : Env) (st : ManagerState)
    (sender target name : String) (offer : SessionDesc) : ManagerState × List Action :=
  if target ≠ st.participantId then (st, [])
  else
    let cleanup := offerCleanup st sender
    let created := createPeerConnection env cleanup.1 sender name false
    let applied := offerApply env st.participantId st.participantName created.1 sender offer
    (applied.1, cleanup.2 ++ created.2 ++ applied.2)

/-- `handleAnswer`: ignores answers not addressed to self; applies the
remote description to the sender's session if present; a failure is caught
and only logged (the session is left in the map). -/
def handleAnswer (env : Env) (st : ManagerState)
    (sender target : String) (answer : SessionDesc) : ManagerState × List Action :=
  if target ≠ st.participantId then (st, [])
  else
    match peersGet st.peers sender with
    | some _ =>
        if env.setRemoteAnswerOk then
          ({ st with peers := peersUpdate st.peers sender (setRemoteAnswer answer) }, [])
        else (st, [Action.logError "Error handling answer"])
    | none => (st, [])

/-- `handleIceCandidate`: ignores candidates not addressed to self; applies
the candidate only when the sender's session exists and its remote
description is set, otherwise drops it silently; an `addIceCandidate`
failure is caught and only logged. -/
def handleIceCandidate (env : Env) (st : ManagerState)
    (sender target : String) (c : IceCandidate) : ManagerState × List Action :=
  if target ≠ st.participantId then (st, [])
  else
    match peersGet st.peers sender with
    | some pc =>
        if pc.remoteDescription.isSome then
          if env.addIceCandidateOk then
            ({ st with peers := peersUpdate st.peers sender (addCandidate c) }, [])
          else (st, [Action.logError "Error adding ICE candidate"])
        else (st, [])
    | none => (st, [])

/-- One iteration of the `handlePresenceSync` loop: a tracked identity that
is remote and not already known is treated as a user-joined announcement. -/
def presenceSyncStep (env : Env) (acc : ManagerState × List Action)
    (kv : String × String) : ManagerState × List Action :=
  if kv.1 ≠ acc.1.participantId ∧ peersGet acc.1.peers kv.1 = none then
    let r := handleUserJoined env acc.1 kv.1 kv.2
    (r.1, acc.2 ++ r.2)
  else acc

/-- `handlePresenceSync`: for every tracked remote identity not already
known, synthesize a user-joined event. -/
def handlePresenceSync (env : Env) (st : ManagerState)
    (presences : List (String × String)) : ManagerState × List Action :=
  presences.foldl (presenceSyncStep env) (st, [])

/-- `handlePresenceJoin`: a presence join for a remote key with at least one
presence record is treated as a user-joined announcement. -/
def handlePresenceJoin (env : Env) (st : ManagerState)
    (key : String) (names : List String) : ManagerState × List Action :=
  match names with
  | [] => (st, [])
  | nm :: _ =>
      if key ≠ st.participantId then handleUserJoined env st key nm
      else (st, [])

/-- `handlePresenceLeave`. -/
def handlePresenceLeave (st : ManagerState) (key : String) : ManagerState × List Action :=
  if key ≠ st.participantId then handleUserLeft st key
  else (st, [])

/-- `joinMeeting()`: guarded by `isInitialized`; the first call broadcasts
the user-joined announcement and tracks presence, later calls return
immediately. -/
def joinMeeting (st : ManagerState) : ManagerState × List Action :=
  if st.isInitialized then (st, [])
  else
    ({ st with isInitialized := true },
     [Action.sendUserJoined st.participantId st.participantName,
      Action.presenceTrack st.participantId st.participantName])

/-- The teardown actions for the sessions: for each session the data
channel is closed (when present) and then the transport is closed. -/
def closeActions (ps : List PeerConnection) : List Action :=
  ps.flatMap (fun pc =>
    (if pc.hasDataChannel then [Action.dataChannelClosed pc.peerId pc.sessionId] else [])
      ++ [Action.peerClosed pc.peerId pc.sessionId])

/-- The actions stopping each local media track. -/
def stopActions (ts : List MediaTrack) : List Action :=
  ts.map (fun t => Action.trackStopped t.kind)

/-- `leaveMeeting()`: cancels the heartbeat, announces leaving, closes every
session's data channel and transport and clears the set, stops every local
media track, and unsubscribes from signaling — in that order. -/
def leaveMeeting (st : ManagerState) : ManagerState × List Action :=
  let hb := if st.heartbeatActive then [Action.heartbeatCancelled] else []
  ({ st with heartbeatActive := false
             peers := []
             localStream := st.localStream.map (fun ts => ts.map (fun t => { t with stopped := true }))
             subscribed := false },
   hb ++ [Action.sendUserLeft st.participantId]
      ++ closeActions st.peers
      ++ stopActions (st.localStream.getD [])
      ++ [Action.unsubscribed])

/-- The events the manager reacts to: public API calls, delivered broadcast
messages, presence events, connection-state callbacks and the reconnection
timer. -/
inductive Event where
  | joinMeeting
  | leaveMeeting
  | userJoined (participantId name : String)
  | userLeft (participantId : String)
  | offerMsg (sender target name : String) (offer : SessionDesc)
  | answerMsg (sender target name : String) (answer : SessionDesc)
  | iceCandidateMsg (sender target : String) (candidate : IceCandidate)
  | handRaisedMsg (participantId name : String) (raised : Bool)
  | heartbeatMsg (participantId : String)
  | presenceSync (presences : List (String × String))
  | presenceJoin (key : String) (names : List String)
  | presenceLeave (key : String)
  | connStateConnected (peerId : String)
  | connStateFailed (peerId name : String)
  | reconnectTimer (peerId name : String)
  | raiseHand (raised : Bool)
  | heartbeatTick
deriving DecidableEq, Repr

/-- The event dispatcher: one step of the single-threaded event loop.
`connStateConnected` resets the reconnect counter
(`onconnectionstatechange`, state `connected`); `connStateFailed` runs
`handleConnectionFailure`; `reconnectTimer` is the scheduled
reconnection `createPeerConnection(peerId, name, true)`. -/
def step (env : Env) (st : ManagerState) (e : Event) : ManagerState × List Action :=
  match e with
  | .joinMeeting => joinMeeting st
  | .leaveMeeting => leaveMeeting st
  | .userJoined id nm => handleUserJoined env st id nm
  | .userLeft id => handleUserLeft st id
  | .offerMsg s t nm o => handleOffer env st s t nm o
  | .answerMsg s t _ a => handleAnswer env st s t a
  | .iceCandidateMsg s t c => handleIceCandidate env st s t c
  | .handRaisedMsg id nm r => handleHandRaised st id nm r
  | .heartbeatMsg id => handleHeartbeat st id
  | .presenceSync l => handlePresenceSync env st l
  | .presenceJoin k nms => handlePresenceJoin env st k nms
  | .presenceLeave k => handlePresenceLeave st k
  | .connStateConnected _ => ({ st with reconnectAttempts := 0 }, [])
  | .connStateFailed p nm => handleConnectionFailure st p nm
  | .reconnectTimer p nm => createPeerConnection env st p nm true
  | .raiseHand r => raiseHand st r
  | .heartbeatTick => heartbeatTick st

/-- A run of the event loop, accumulating the trace of actions. -/
def run (env : Env) (st : ManagerState) : List Event → ManagerState × List Action
  | [] => (st, [])
  | e :: evs =>
      let r := step env st e
      let rest := run env r.1 evs
      (rest.1, r.2 ++ rest.2)

/-- The environment in which every browser-side negotiation call succeeds. -/
def envOk : Env := { createOfferOk := true, setRemoteOfferOk := true,
                     setRemoteAnswerOk := true, addIceCandidateOk := true }

/-- A numeric media constraint: an exact value or a min/ideal/max range. -/
inductive NatConstraint where
  | exact (n : Nat)
  | range (lo ideal hi : Nat)
deriving DecidableEq, Repr

/-- The video part of a getUserMedia constraint set. -/
structure VideoConstraints where
  width : NatConstraint
  height : NatConstraint
  frameRate : Option NatConstraint
deriving DecidableEq, Repr

/-- The audio-processing part of a getUserMedia constraint set (a field is
`none` when the source leaves it unspecified). -/
structure AudioConstraints where
  echoCancellation : Option Bool
  noiseSuppression : Option Bool
  autoGainControl : Option Bool
deriving DecidableEq, Repr

/-- A getUserMedia constraint set: `none` components mean the corresponding
kind was not requested (`video: false` / `audio: false`). -/
structure MediaConstraints where
  video : Option VideoConstraints
  audio : Option AudioConstraints
deriving DecidableEq, Repr

/-- The first, high-quality constraint set of `initializeMedia`: video
width {min 320, ideal 1920, max 3840}, height {min 240, ideal 1080,
max 2160}, frameRate {min 24, ideal 60, max 120}; audio with echo
cancellation, noise suppression and auto gain control. -/
def highQualityConstraints (video audio : Bool) : MediaConstraints :=
  { video := if video then
      some { width := NatConstraint.range 320 1920 3840,
             height := NatConstraint.range 240 1080 2160,
             frameRate := some (NatConstraint.range 24 60 120) }
    else none,
    audio := if audio then
      some { echoCancellation := some true, noiseSuppression := some true,
             autoGainControl := some true }
    else none }

/-- The fallback constraint set of `initializeMedia`: fixed 640x480 video,
audio with only echo cancellation and noise suppression. -/
def fallbackConstraints (video audio : Bool) : MediaConstraints :=
  { video := if video then
      some { width := NatConstraint.exact 640, height := NatConstraint.exact 480,
             frameRate := none }
    else none,
    audio := if audio then
      some { echoCancellation := some true, noiseSuppression := some true,
             autoGainControl := none }
    else none }

/-- The browser's media stack: which constraint sets getUserMedia grants. -/
structure MediaEnv where
  getUserMedia : MediaConstraints → Option (List MediaTrack)

/-- The error surfaced when both media-acquisition attempts fail. -/
inductive MediaError where
  | mediaAccessError
deriving DecidableEq, Repr

/-- Result of `initializeMedia`: the outcome, the getUserMedia requests
issued in order, and the updated manager state. -/
structure MediaResult where
  result : Except MediaError (List MediaTrack)
  requests : List MediaConstraints
  state : ManagerState
deriving Repr

/-- `initializeMedia(video, audio)`: requests the high-quality constraints;
on failure retries exactly once with the fallback constraints; throws only
when both attempts fail. (The audio-enhancement chain built on success does
not change the returned stream and is omitted.) -/
def initializeMedia (menv : MediaEnv) (st : ManagerState)
    (video audio : Bool) : MediaResult :=
  let c1 := highQualityConstraints video audio
  match menv.getUserMedia c1 with
  | some s => { result := Except.ok s, requests := [c1],
                state := { st with localStream := some s } }
  | none =>
      let c2 := fallbackConstraints video audio
      match menv.getUserMedia c2 with
      | some s => { result := Except.ok s, requests := [c1, c2],
                    state := { st with localStream := some s } }
      | none => { result := Except.error MediaError.mediaAccessError,
                  requests := [c1, c2], state := st }

/-- Recognizes the scheduling of an automatic reconnection attempt. -/
def isScheduleReconnect : Action → Bool
  | Action.scheduleReconnect _ _ _ => true
  | _ => false

/-- Number of automatic reconnection attempts scheduled in a trace. -/
def countReconnects (tr : List Action) : Nat :=
  (tr.filter isScheduleReconnect).length

/-- One transport failure of peer `p`'s live session followed by the
scheduled reconnection timer, if one was scheduled: the transport can only
fail while the session exists, and the reconnection
`createPeerConnection` only runs if `handleConnectionFailure` scheduled it. -/
def failStep (env : Env) (p nm : String)
    (s : ManagerState × List Action) : ManagerState × List Action :=
  if (peersGet s.1.peers p).isSome then
    let r1 := step env s.1 (Event.connStateFailed p nm)
    if r1.2.any isScheduleReconnect then
      let r2 := step env r1.1 (Event.reconnectTimer p nm)
      (r2.1, s.2 ++ r1.2 ++ r2.2)
    else (r1.1, s.2 ++ r1.2)
  else s

/-- `n` consecutive transport failures of peer `p` (with each scheduled
reconnection firing and then failing in turn) starting from `st`. -/
def failRun (env : Env) (p nm : String) (st : ManagerState) :
    Nat → ManagerState × List Action
  | 0 => (st, [])
  | n + 1 => failStep env p nm (failRun env p nm st n)

/-- The session `createPeerConnection(p, nm, true)` stores after a
successfully created offer, with generation tag `sid`. -/
def initiatorSession (p nm : String) (sid : Nat) : PeerConnection :=
  setLocalOffer (freshSession p nm sid)

/-- A freshly constructed manager holding one live initiator session for
peer `p`, reconnect counter at zero. -/
def failInit (mid pid pnm p nm : String) : ManagerState :=
  { mkManager mid pid pnm with peers := [initiatorSession p nm 0], nextSessionId := 1 }

/-- The manager state after `k` completed failure/reconnect rounds for peer
`p` starting from `base`: the live session carries generation tag `k` and
the shared reconnect counter reads `k`. -/
def failState (base : ManagerState) (p nm : String) (k : Nat) : ManagerState :=
  { base with
      peers := [initiatorSession p nm k]
      reconnectAttempts := k
      nextSessionId := k + 1 }

/-- The trace produced by `k` failure/reconnect rounds (k at most 5): each
round closes the old transport, schedules the reconnection, recreates the
session and resends the offer. -/
def failTrace (selfId selfName p nm : String) : Nat → List Action
  | 0 => []
  | k + 1 => failTrace selfId selfName p nm k
      ++ [Action.peerClosed p k, Action.scheduleReconnect p nm (k + 1),
          Action.sessionCreated p (k + 1) true,
          Action.sendOffer selfId p selfName]

/-- Recognizes the user-joined broadcast. -/
def isUserJoinedMsg : Action → Bool
  | Action.sendUserJoined _ _ => true
  | _ => false

/-- Number of user-joined broadcasts in a trace. -/
def countUserJoinedMsgs (tr : List Action) : Nat :=
  (tr.filter isUserJoinedMsg).length

/-- The uniqueness invariant: at most one session per remote id. -/
def uniquePeers (st : ManagerState) : Prop :=
  (keysOf st.peers).Nodup

/-- A responder session with its remote description already set, used as a
concrete session in closed instances. -/
def demoSession : PeerConnection :=
  { peerId := "p2", name := "Bob", sessionId := 0,
    remoteDescription := some (SessionDesc.mk "offer-sdp"),
    localDescription := some (SessionDesc.mk "answer"),
    appliedCandidates := [], hasDataChannel := true }

/-- A concrete manager state for participant "p1" knowing peer "p2". -/
def demoState : ManagerState :=
  { mkManager "m1" "p1" "Alice" with peers := [demoSession], nextSessionId := 1 }

/-- Two live (unstopped) local media tracks. -/
def demoTracks : List MediaTrack :=
  [{ kind := "video", enabled := true, stopped := false },
   { kind := "audio", enabled := true, stopped := false }]

/-- `demoState` carrying two live (unstopped) local media tracks. -/
def demoMediaState : ManagerState :=
  { demoState with localStream := some demoTracks }

/-- `demoState` after a successful joinMeeting (initialized flag set). -/
def demoInitState : ManagerState :=
  { demoState with isInitialized := true }

/-- A browser media stack that rejects the high-quality constraint set and
grants the fallback set. -/
def demoMediaEnv : MediaEnv :=
  MediaEnv.mk (fun c =>
    if c = highQualityConstraints true true then none else some demoTracks)

theorem peersGet_eq_none_iff (ps : List PeerConnection) (id : String) :
    peersGet ps id = none ↔ ∀ pc ∈ ps, pc.peerId ≠ id := by
  simp [peersGet, List.find?_eq_none]

theorem peersGet_mem (ps : List PeerConnection) (id : String) (pc : PeerConnection)
    (h : peersGet ps id = some pc) : pc ∈ ps ∧ pc.peerId = id := by
  have h1 := List.mem_of_find?_eq_some h
  have h2 := List.find?_some h
  simp only [decide_eq_true_eq] at h2
  exact ⟨h1, h2⟩

theorem peersGet_append (ps qs : List PeerConnection) (id : String) :
    peersGet (ps ++ qs) id = (peersGet ps id).or (peersGet qs id) := by
  simp [peersGet, List.find?_append]

theorem peersGet_peersDelete_self (ps : List PeerConnection) (id : String) :
    peersGet (peersDelete ps id) id = none := by
  rw [peersGet_eq_none_iff]
  intro pc hpc
  have := List.of_mem_filter hpc
  simpa using this

theorem peersGet_peersDelete_ne (ps : List PeerConnection) (id q : String)
    (h : q ≠ id) : peersGet (peersDelete ps id) q = peersGet ps q := by
  unfold peersGet peersDelete
  rw [List.find?_filter]
  congr 1
  funext pc
  simp only [decide_eq_true_eq, ne_eq]
  rw [decide_eq_decide]
  constructor
  · exact fun hx => hx.2
  · intro hq
    refine ⟨?_, hq⟩
    intro hc
    apply h
    rw [← hq, hc]

theorem peersGet_peersUpdate_self (ps : List PeerConnection) (id : String)
    (f : PeerConnection → PeerConnection) (hf : ∀ pc, (f pc).peerId = pc.peerId) :
    peersGet (peersUpdate ps id f) id = (peersGet ps id).map f := by
  induction ps with
  | nil => rfl
  | cons hd tl ih =>
      by_cases hh : hd.peerId = id
      · rw [peersUpdate, List.map_cons, if_pos hh, peersGet,
          List.find?_cons_of_pos _ (by simp [hf, hh]), peersGet,
          List.find?_cons_of_pos _ (by simpa using hh)]
        rfl
      · rw [peersUpdate, List.map_cons, if_neg hh, peersGet,
          List.find?_cons_of_neg _ (by simpa using hh), peersGet,
          List.find?_cons_of_neg _ (by simpa using hh)]
        exact ih

theorem peersGet_peersUpdate_ne (ps : List PeerConnection) (id q : String)
    (f : PeerConnection → PeerConnection) (hf : ∀ pc, (f pc).peerId = pc.peerId)
    (h : q ≠ id) : peersGet (peersUpdate ps id f) q = peersGet ps q := by
  induction ps with
  | nil => rfl
  | cons hd tl ih =>
      by_cases hh : hd.peerId = id
      · have hq : ¬(hd.peerId = q) := by
          intro hc; exact h (hc ▸ hh.symm ▸ rfl)
        rw [peersUpdate, List.map_cons, if_pos hh, peersGet,
          List.find?_cons_of_neg _ (by simp [hf, hq]), peersGet,
          List.find?_cons_of_neg _ (by simpa using hq)]
        exact ih
      · by_cases hq : hd.peerId = q
        · rw [peersUpdate, List.map_cons, if_neg hh, peersGet,
            List.find?_cons_of_pos _ (by simpa using hq), peersGet,
            List.find?_cons_of_pos _ (by simpa using hq)]
        · rw [peersUpdate, List.map_cons, if_neg hh, peersGet,
            List.find?_cons_of_neg _ (by simpa using hq), peersGet,
            List.find?_cons_of_neg _ (by simpa using hq)]
          exact ih

theorem keysOf_peersUpdate (ps : List PeerConnection) (id : String)
    (f : PeerConnection → PeerConnection) (hf : ∀ pc, (f pc).peerId = pc.peerId) :
    keysOf (peersUpdate ps id f) = keysOf ps := by
  unfold keysOf peersUpdate
  rw [List.map_map]
  apply List.map_congr_left
  intro pc _
  by_cases hh : pc.peerId = id <;> simp [hh, hf]

theorem nodup_peersDelete (ps : List PeerConnection) (id : String)
    (h : (keysOf ps).Nodup) : (keysOf (peersDelete ps id)).Nodup := by
  apply List.Nodup.sublist _ h
  exact List.Sublist.map _ (List.filter_sublist ps)

theorem mem_keysOf (ps : List PeerConnection) (id : String) :
    id ∈ keysOf ps ↔ ∃ pc ∈ ps, pc.peerId = id := by
  simp [keysOf]

theorem nodup_append_new (ps : List PeerConnection) (pc : PeerConnection)
    (h : (keysOf ps).Nodup) (hnone : peersGet ps pc.peerId = none) :
    (keysOf (ps ++ [pc])).Nodup := by
  unfold keysOf
  rw [List.map_append]
  rw [List.nodup_append]
  refine ⟨h, List.nodup_singleton _, ?_⟩
  intro a ha hb
  simp only [List.map_singleton, List.mem_singleton] at hb
  subst hb
  rw [peersGet_eq_none_iff] at hnone
  rw [show (List.map (fun pc => pc.peerId) ps) = keysOf ps from rfl,
    mem_keysOf] at ha
  obtain ⟨q, hq, hq2⟩ := ha
  exact hnone q hq hq2

theorem countUJ_append (a b : List Action) :
    countUserJoinedMsgs (a ++ b) = countUserJoinedMsgs a + countUserJoinedMsgs b := by
  simp [countUserJoinedMsgs, List.filter_append]

theorem countUJ_cons (a : Action) (tr : List Action) :
    countUserJoinedMsgs (a :: tr)
      = (if isUserJoinedMsg a then 1 else 0) + countUserJoinedMsgs tr := by
  simp only [countUserJoinedMsgs, List.filter_cons]
  by_cases h : isUserJoinedMsg a = true <;> simp [h, Nat.add_comm]

theorem countReconnects_append (a b : List Action) :
    countReconnects (a ++ b) = countReconnects a + countReconnects b := by
  simp [countReconnects, List.filter_append]

theorem setLocalOffer_peerId (pc : PeerConnection) :
    (setLocalOffer pc).peerId = pc.peerId := rfl

theorem setNegotiated_peerId (o : SessionDesc) (pc : PeerConnection) :
    (setNegotiated o pc).peerId = pc.peerId := rfl

theorem setRemoteAnswer_peerId (a : SessionDesc) (pc : PeerConnection) :
    (setRemoteAnswer a pc).peerId = pc.peerId := rfl

theorem addCandidate_peerId (c : IceCandidate) (pc : PeerConnection) :
    (addCandidate c pc).peerId = pc.peerId := rfl

theorem peersGet_singleton_ne (pc : PeerConnection) (q : String)
    (h : ¬ pc.peerId = q) : peersGet [pc] q = none := by
  unfold peersGet
  rw [List.find?_cons_of_neg _ (by simpa using h)]
  rfl

theorem peersGet_singleton_self (pc : PeerConnection) (q : String)
    (h : pc.peerId = q) : peersGet [pc] q = some pc := by
  unfold peersGet
  rw [List.find?_cons_of_pos _ (by simpa using h)]

theorem createPeerConnection_frame (env : Env) (st : ManagerState)
    (p nm : String) (b : Bool) :
    (createPeerConnection env st p nm b).1.participantId = st.participantId
    ∧ (createPeerConnection env st p nm b).1.participantName = st.participantName
    ∧ (createPeerConnection env st p nm b).1.isInitialized = st.isInitialized
    ∧ (createPeerConnection env st p nm b).1.heartbeatActive = st.heartbeatActive
    ∧ countUserJoinedMsgs (createPeerConnection env st p nm b).2 = 0 := by
  unfold createPeerConnection
  split
  · simp [countUserJoinedMsgs]
  · split
    · split
      · simp [countUserJoinedMsgs, isUserJoinedMsg]
      · simp [countUserJoinedMsgs, isUserJoinedMsg]
    · simp [countUserJoinedMsgs, isUserJoinedMsg]

theorem peersGet_append_fresh (ps : List PeerConnection) (p nm : String)
    (sid : Nat) (q : String) (hq : q ≠ p) :
    peersGet (ps ++ [freshSession p nm sid]) q = peersGet ps q := by
  rw [peersGet_append,
    peersGet_singleton_ne _ _ (by simpa [freshSession] using fun hc => hq hc.symm)]
  cases peersGet ps q <;> rfl

theorem createPeerConnection_other_keys (env : Env) (st : ManagerState)
    (p nm : String) (b : Bool) (q : String) (hq : q ≠ p) :
    peersGet (createPeerConnection env st p nm b).1.peers q = peersGet st.peers q := by
  unfold createPeerConnection
  split
  · rfl
  · split
    · split
      · simp only
        rw [peersGet_peersUpdate_ne _ _ _ _ setLocalOffer_peerId hq,
          peersGet_append_fresh _ _ _ _ _ hq]
      · simp only
        rw [peersGet_peersDelete_ne _ _ _ hq,
          peersGet_append_fresh _ _ _ _ _ hq]
    · simp only
      rw [peersGet_append_fresh _ _ _ _ _ hq]

theorem createPeerConnection_preserves_entry (env : Env) (st : ManagerState)
    (p nm : String) (b : Bool) (q : String) (pc : PeerConnection)
    (h : peersGet st.peers q = some pc) :
    peersGet (createPeerConnection env st p nm b).1.peers q = some pc := by
  by_cases hq : q = p
  · subst hq
    unfold createPeerConnection
    rw [if_pos (by rw [h]; rfl)]
    exact h
  · rw [createPeerConnection_other_keys env st p nm b q hq]
    exact h

theorem createPeerConnection_nodup (env : Env) (st : ManagerState)
    (p nm : String) (b : Bool) (h : (keysOf st.peers).Nodup) :
    (keysOf (createPeerConnection env st p nm b).1.peers).Nodup := by
  unfold createPeerConnection
  split
  · exact h
  · rename_i hnone
    rw [Option.not_isSome_iff_eq_none] at hnone
    have happ := nodup_append_new st.peers
      (freshSession p nm st.nextSessionId) h (by simpa [freshSession] using hnone)
    split
    · split
      · simp only
        rw [keysOf_peersUpdate _ _ _ setLocalOffer_peerId]
        exact happ
      · simp only
        exact nodup_peersDelete _ _ happ
    · exact happ

theorem countUJ_eq_zero (tr : List Action)
    (h : ∀ a ∈ tr, isUserJoinedMsg a = false) : countUserJoinedMsgs tr = 0 := by
  unfold countUserJoinedMsgs
  have : tr.filter isUserJoinedMsg = [] := by
    rw [List.filter_eq_nil_iff]
    intro a ha
    simp [h a ha]
  rw [this]
  rfl

theorem countUJ_closeActions (ps : List PeerConnection) :
    countUserJoinedMsgs (closeActions ps) = 0 := by
  apply countUJ_eq_zero
  intro a ha
  simp only [closeActions, List.mem_flatMap] at ha
  obtain ⟨pc, _, hmem⟩ := ha
  rcases List.mem_append.mp hmem with hmem | hmem
  · split at hmem <;> simp_all [isUserJoinedMsg]
  · simp_all [isUserJoinedMsg]

theorem countUJ_stopActions (ts : List MediaTrack) :
    countUserJoinedMsgs (stopActions ts) = 0 := by
  apply countUJ_eq_zero
  intro a ha
  simp only [stopActions, List.mem_map] at ha
  obtain ⟨t, _, rfl⟩ := ha
  rfl

theorem handleUserJoined_frame (env : Env) (st : ManagerState) (id nm : String) :
    (handleUserJoined env st id nm).1.participantId = st.participantId
    ∧ (handleUserJoined env st id nm).1.participantName = st.participantName
    ∧ (handleUserJoined env st id nm).1.isInitialized = st.isInitialized
    ∧ (handleUserJoined env st id nm).1.heartbeatActive = st.heartbeatActive
    ∧ countUserJoinedMsgs (handleUserJoined env st id nm).2 = 0 := by
  unfold handleUserJoined
  split
  · exact ⟨rfl, rfl, rfl, rfl, rfl⟩
  · exact createPeerConnection_frame env st id nm true

theorem handleUserJoined_preserves_entry (env : Env) (st : ManagerState)
    (id nm q : String) (pc : PeerConnection)
    (h : peersGet st.peers q = some pc) :
    peersGet (handleUserJoined env st id nm).1.peers q = some pc := by
  unfold handleUserJoined
  split
  · exact h
  · exact createPeerConnection_preserves_entry env st id nm true q pc h

theorem handleUserJoined_nodup (env : Env) (st : ManagerState) (id nm : String)
    (h : (keysOf st.peers).Nodup) :
    (keysOf (handleUserJoined env st id nm).1.peers).Nodup := by
  unfold handleUserJoined
  split
  · exact h
  · exact createPeerConnection_nodup env st id nm true h

theorem handleUserLeft_frame (st : ManagerState) (id : String) :
    (handleUserLeft st id).1.participantId = st.participantId
    ∧ (handleUserLeft st id).1.isInitialized = st.isInitialized
    ∧ countUserJoinedMsgs (handleUserLeft st id).2 = 0 := by
  unfold handleUserLeft
  split <;> exact ⟨rfl, rfl, rfl⟩

theorem handleUserLeft_nodup (st : ManagerState) (id : String)
    (h : (keysOf st.peers).Nodup) :
    (keysOf (handleUserLeft st id).1.peers).Nodup := by
  unfold handleUserLeft
  split
  · exact nodup_peersDelete _ _ h
  · exact h

theorem offerCleanup_frame (st : ManagerState) (sender : String) :
    (offerCleanup st sender).1.participantId = st.participantId
    ∧ (offerCleanup st sender).1.isInitialized = st.isInitialized
    ∧ countUserJoinedMsgs (offerCleanup st sender).2 = 0 := by
  unfold offerCleanup
  split <;> exact ⟨rfl, rfl, rfl⟩

theorem offerCleanup_nodup (st : ManagerState) (sender : String)
    (h : (keysOf st.peers).Nodup) :
    (keysOf (offerCleanup st sender).1.peers).Nodup := by
  unfold offerCleanup
  split
  · exact nodup_peersDelete _ _ h
  · exact h

theorem offerApply_frame (env : Env) (selfId selfName : String)
    (st2 : ManagerState) (sender : String) (offer : SessionDesc) :
    (offerApply env selfId selfName st2 sender offer).1.participantId = st2.participantId
    ∧ (offerApply env selfId selfName st2 sender offer).1.isInitialized = st2.isInitialized
    ∧ countUserJoinedMsgs (offerApply env selfId selfName st2 sender offer).2 = 0 := by
  unfold offerApply
  split
  · split <;> exact ⟨rfl, rfl, rfl⟩
  · exact ⟨rfl, rfl, rfl⟩

theorem offerApply_nodup (env : Env) (selfId selfName : String)
    (st2 : ManagerState) (sender : String) (offer : SessionDesc)
    (h : (keysOf st2.peers).Nodup) :
    (keysOf (offerApply env selfId selfName st2 sender offer).1.peers).Nodup := by
  unfold offerApply
  split
  · split
    · simp only
      rw [keysOf_peersUpdate _ _ _ (setNegotiated_peerId offer)]
      exact h
    · exact nodup_peersDelete _ _ h
  · exact h

theorem handleOffer_frame (env : Env) (st : ManagerState)
    (sender target name : String) (offer : SessionDesc) :
    (handleOffer env st sender target name offer).1.participantId = st.participantId
    ∧ (handleOffer env st sender target name offer).1.isInitialized = st.isInitialized
    ∧ countUserJoinedMsgs (handleOffer env st sender target name offer).2 = 0 := by
  unfold handleOffer
  split
  · exact ⟨rfl, rfl, rfl⟩
  · have h1 := offerCleanup_frame st sender
    have h2 := createPeerConnection_frame env (offerCleanup st sender).1 sender name false
    have h3 := offerApply_frame env st.participantId st.participantName
      (createPeerConnection env (offerCleanup st sender).1 sender name false).1 sender offer
    refine ⟨?_, ?_, ?_⟩
    · exact h3.1.trans (h2.1.trans h1.1)
    · exact h3.2.1.trans (h2.2.2.1.trans h1.2.1)
    · simp only [countUJ_append, h1.2.2, h2.2.2.2.2, h3.2.2]

theorem handleOffer_nodup (env : Env) (st : ManagerState)
    (sender target name : String) (offer : SessionDesc)
    (h : (keysOf st.peers).Nodup) :
    (keysOf (handleOffer env st sender target name offer).1.peers).Nodup := by
  unfold handleOffer
  split
  · exact h
  · exact offerApply_nodup env _ _ _ sender offer
      (createPeerConnection_nodup env _ sender name false
        (offerCleanup_nodup st sender h))

theorem handleAnswer_frame (env : Env) (st : ManagerState)
    (sender target : String) (answer : SessionDesc) :
    (handleAnswer env st sender target answer).1.participantId = st.participantId
    ∧ (handleAnswer env st sender target answer).1.isInitialized = st.isInitialized
    ∧ countUserJoinedMsgs (handleAnswer env st sender target answer).2 = 0 := by
  unfold handleAnswer
  split
  · exact ⟨rfl, rfl, rfl⟩
  · split
    · split <;> exact ⟨rfl, rfl, rfl⟩
    · exact ⟨rfl, rfl, rfl⟩

theorem handleAnswer_nodup (env : Env) (st : ManagerState)
    (sender target : String) (answer : SessionDesc)
    (h : (keysOf st.peers).Nodup) :
    (keysOf (handleAnswer env st sender target answer).1.peers).Nodup := by
  unfold handleAnswer
  split
  · exact h
  · split
    · split
      · simp only
        rw [keysOf_peersUpdate _ _ _ (setRemoteAnswer_peerId answer)]
        exact h
      · exact h
    · exact h

theorem handleIceCandidate_frame (env : Env) (st : ManagerState)
    (sender target : String) (c : IceCandidate) :
    (handleIceCandidate env st sender target c).1.participantId = st.participantId
    ∧ (handleIceCandidate env st sender target c).1.isInitialized = st.isInitialized
    ∧ countUserJoinedMsgs (handleIceCandidate env st sender target c).2 = 0 := by
  unfold handleIceCandidate
  split
  · exact ⟨rfl, rfl, rfl⟩
  · split
    · split
      · split <;> exact ⟨rfl, rfl, rfl⟩
      · exact ⟨rfl, rfl, rfl⟩
    · exact ⟨rfl, rfl, rfl⟩

theorem handleIceCandidate_nodup (env : Env) (st : ManagerState)
    (sender target : String) (c : IceCandidate)
    (h : (keysOf st.peers).Nodup) :
    (keysOf (handleIceCandidate env st sender target c).1.peers).Nodup := by
  unfold handleIceCandidate
  split
  · exact h
  · split
    · split
      · split
        · simp only
          rw [keysOf_peersUpdate _ _ _ (addCandidate_peerId c)]
          exact h
        · exact h
      · exact h
    · exact h

theorem handleConnectionFailure_frame (st : ManagerState) (p nm : String) :
    (handleConnectionFailure st p nm).1.participantId = st.participantId
    ∧ (handleConnectionFailure st p nm).1.isInitialized = st.isInitialized
    ∧ countUserJoinedMsgs (handleConnectionFailure st p nm).2 = 0 := by
  unfold handleConnectionFailure
  split
  · exact ⟨rfl, rfl, rfl⟩
  · split <;> exact ⟨rfl, rfl, rfl⟩

theorem handleConnectionFailure_nodup (st : ManagerState) (p nm : String)
    (h : (keysOf st.peers).Nodup) :
    (keysOf (handleConnectionFailure st p nm).1.peers).Nodup := by
  unfold handleConnectionFailure
  split
  · exact nodup_peersDelete _ _ h
  · split
    · exact nodup_peersDelete _ _ h
    · exact h

theorem presenceSyncStep_frame (env : Env) (acc : ManagerState × List Action)
    (kv : String × String) :
    (presenceSyncStep env acc kv).1.participantId = acc.1.participantId
    ∧ (presenceSyncStep env acc kv).1.isInitialized = acc.1.isInitialized
    ∧ countUserJoinedMsgs (presenceSyncStep env acc kv).2
        = countUserJoinedMsgs acc.2 := by
  unfold presenceSyncStep
  split
  · have h := handleUserJoined_frame env acc.1 kv.1 kv.2
    exact ⟨h.1, h.2.2.1, by simp [countUJ_append, h.2.2.2.2]⟩
  · exact ⟨rfl, rfl, rfl⟩

theorem presenceSyncFold_frame (env : Env) (pres : List (String × String)) :
    ∀ acc : ManagerState × List Action,
      (pres.foldl (presenceSyncStep env) acc).1.participantId = acc.1.participantId
      ∧ (pres.foldl (presenceSyncStep env) acc).1.isInitialized = acc.1.isInitialized
      ∧ countUserJoinedMsgs (pres.foldl (presenceSyncStep env) acc).2
          = countUserJoinedMsgs acc.2 := by
  induction pres with
  | nil => exact fun acc => ⟨rfl, rfl, rfl⟩
  | cons kv tl ih =>
      intro acc
      rw [List.foldl_cons]
      have h1 := presenceSyncStep_frame env acc kv
      have h2 := ih (presenceSyncStep env acc kv)
      exact ⟨h2.1.trans h1.1, h2.2.1.trans h1.2.1, h2.2.2.trans h1.2.2⟩

theorem presenceSyncStep_nodup (env : Env) (acc : ManagerState × List Action)
    (kv : String × String) (h : (keysOf acc.1.peers).Nodup) :
    (keysOf (presenceSyncStep env acc kv).1.peers).Nodup := by
  unfold presenceSyncStep
  split
  · exact handleUserJoined_nodup env acc.1 kv.1 kv.2 h
  · exact h

theorem presenceSyncFold_nodup (env : Env) (pres : List (String × String)) :
    ∀ acc : ManagerState × List Action, (keysOf acc.1.peers).Nodup →
      (keysOf (pres.foldl (presenceSyncStep env) acc).1.peers).Nodup := by
  induction pres with
  | nil => exact fun acc h => h
  | cons kv tl ih =>
      intro acc h
      rw [List.foldl_cons]
      exact ih _ (presenceSyncStep_nodup env acc kv h)

theorem presenceSyncStep_preserves_entry (env : Env)
    (acc : ManagerState × List Action) (kv : String × String) (q : String)
    (pc : PeerConnection) (h : peersGet acc.1.peers q = some pc) :
    peersGet (presenceSyncStep env acc kv).1.peers q = some pc := by
  unfold presenceSyncStep
  split
  · exact handleUserJoined_preserves_entry env acc.1 kv.1 kv.2 q pc h
  · exact h

theorem presenceSyncFold_preserves_entry (env : Env)
    (pres : List (String × String)) :
    ∀ (acc : ManagerState × List Action) (q : String) (pc : PeerConnection),
      peersGet acc.1.peers q = some pc →
      peersGet (pres.foldl (presenceSyncStep env) acc).1.peers q = some pc := by
  induction pres with
  | nil => exact fun acc q pc h => h
  | cons kv tl ih =>
      intro acc q pc h
      rw [List.foldl_cons]
      exact ih _ q pc (presenceSyncStep_preserves_entry env acc kv q pc h)

theorem handlePresenceJoin_frame (env : Env) (st : ManagerState)
    (key : String) (names : List String) :
    (handlePresenceJoin env st key names).1.participantId = st.participantId
    ∧ (handlePresenceJoin env st key names).1.isInitialized = st.isInitialized
    ∧ countUserJoinedMsgs (handlePresenceJoin env st key names).2 = 0 := by
  unfold handlePresenceJoin
  split
  · exact ⟨rfl, rfl, rfl⟩
  · split
    · rename_i nm _ _
      have h := handleUserJoined_frame env st key nm
      exact ⟨h.1, h.2.2.1, h.2.2.2.2⟩
    · exact ⟨rfl, rfl, rfl⟩

theorem handlePresenceJoin_nodup (env : Env) (st : ManagerState)
    (key : String) (names : List String) (h : (keysOf st.peers).Nodup) :
    (keysOf (handlePresenceJoin env st key names).1.peers).Nodup := by
  unfold handlePresenceJoin
  split
  · exact h
  · split
    · exact handleUserJoined_nodup env st key _ h
    · exact h

theorem handlePresenceLeave_frame (st : ManagerState) (key : String) :
    (handlePresenceLeave st key).1.participantId = st.participantId
    ∧ (handlePresenceLeave st key).1.isInitialized = st.isInitialized
    ∧ countUserJoinedMsgs (handlePresenceLeave st key).2 = 0 := by
  unfold handlePresenceLeave
  split
  · exact handleUserLeft_frame st key
  · exact ⟨rfl, rfl, rfl⟩

theorem handlePresenceLeave_nodup (st : ManagerState) (key : String)
    (h : (keysOf st.peers).Nodup) :
    (keysOf (handlePresenceLeave st key).1.peers).Nodup := by
  unfold handlePresenceLeave
  split
  · exact handleUserLeft_nodup st key h
  · exact h

theorem leaveMeeting_frame (st : ManagerState) :
    (leaveMeeting st).1.participantId = st.participantId
    ∧ (leaveMeeting st).1.isInitialized = st.isInitialized
    ∧ countUserJoinedMsgs (leaveMeeting st).2 = 0 := by
  refine ⟨rfl, rfl, ?_⟩
  unfold leaveMeeting
  simp only
  rw [countUJ_append, countUJ_append, countUJ_append, countUJ_closeActions,
    countUJ_stopActions]
  split <;> rfl

theorem joinMeeting_nodup (st : ManagerState) (h : (keysOf st.peers).Nodup) :
    (keysOf (joinMeeting st).1.peers).Nodup := by
  unfold joinMeeting
  split <;> exact h

theorem step_nodup (env : Env) (st : ManagerState) (e : Event)
    (h : (keysOf st.peers).Nodup) : (keysOf (step env st e).1.peers).Nodup := by
  cases e with
  | joinMeeting => exact joinMeeting_nodup st h
  | leaveMeeting => exact List.nodup_nil
  | userJoined id nm => exact handleUserJoined_nodup env st id nm h
  | userLeft id => exact handleUserLeft_nodup st id h
  | offerMsg sd t nm o => exact handleOffer_nodup env st sd t nm o h
  | answerMsg sd t nm a => exact handleAnswer_nodup env st sd t a h
  | iceCandidateMsg sd t c => exact handleIceCandidate_nodup env st sd t c h
  | handRaisedMsg id nm r =>
      show (keysOf (handleHandRaised st id nm r).1.peers).Nodup
      unfold handleHandRaised
      split <;> exact h
  | heartbeatMsg id =>
      show (keysOf (handleHeartbeat st id).1.peers).Nodup
      unfold handleHeartbeat
      split <;> exact h
  | presenceSync l => exact presenceSyncFold_nodup env l (st, []) h
  | presenceJoin k nms => exact handlePresenceJoin_nodup env st k nms h
  | presenceLeave k => exact handlePresenceLeave_nodup st k h
  | connStateConnected p => exact h
  | connStateFailed p nm => exact handleConnectionFailure_nodup st p nm h
  | reconnectTimer p nm => exact createPeerConnection_nodup env st p nm true h
  | raiseHand r => exact h
  | heartbeatTick =>
      show (keysOf (heartbeatTick st).1.peers).Nodup
      unfold heartbeatTick
      split <;> exact h

theorem run_nodup (env : Env) : ∀ (evs : List Event) (st : ManagerState),
    (keysOf st.peers).Nodup → (keysOf (run env st evs).1.peers).Nodup := by
  intro evs
  induction evs with
  | nil => exact fun st h => h
  | cons e tl ih =>
      intro st h
      exact ih (step env st e).1 (step_nodup env st e h)

theorem step_potential (env : Env) (st : ManagerState) (e : Event) :
    countUserJoinedMsgs (step env st e).2
      + (if (step env st e).1.isInitialized then 0 else 1)
      ≤ (if st.isInitialized then 0 else 1) := by
  have hpot : ∀ r : ManagerState × List Action,
      r.1.isInitialized = st.isInitialized → countUserJoinedMsgs r.2 = 0 →
      countUserJoinedMsgs r.2 + (if r.1.isInitialized then 0 else 1)
        ≤ (if st.isInitialized then 0 else 1) := by
    intro r h1 h2
    rw [h1, h2]
    omega
  cases e with
  | joinMeeting =>
      show countUserJoinedMsgs (joinMeeting st).2
        + (if (joinMeeting st).1.isInitialized then 0 else 1) ≤ _
      unfold joinMeeting
      by_cases h : st.isInitialized = true
      · rw [if_pos h]
        simp [h, countUserJoinedMsgs]
      · rw [if_neg h]
        simp only [Bool.not_eq_true] at h
        simp [h, countUserJoinedMsgs, isUserJoinedMsg, List.filter]
  | leaveMeeting =>
      exact hpot (leaveMeeting st) (leaveMeeting_frame st).2.1 (leaveMeeting_frame st).2.2
  | userJoined id nm =>
      exact hpot (handleUserJoined env st id nm)
        (handleUserJoined_frame env st id nm).2.2.1
        (handleUserJoined_frame env st id nm).2.2.2.2
  | userLeft id =>
      exact hpot (handleUserLeft st id)
        (handleUserLeft_frame st id).2.1 (handleUserLeft_frame st id).2.2
  | offerMsg sd t nm o =>
      exact hpot (handleOffer env st sd t nm o)
        (handleOffer_frame env st sd t nm o).2.1 (handleOffer_frame env st sd t nm o).2.2
  | answerMsg sd t nm a =>
      exact hpot (handleAnswer env st sd t a)
        (handleAnswer_frame env st sd t a).2.1 (handleAnswer_frame env st sd t a).2.2
  | iceCandidateMsg sd t c =>
      exact hpot (handleIceCandidate env st sd t c)
        (handleIceCandidate_frame env st sd t c).2.1
        (handleIceCandidate_frame env st sd t c).2.2
  | handRaisedMsg id nm r =>
      show countUserJoinedMsgs (handleHandRaised st id nm r).2
        + (if (handleHandRaised st id nm r).1.isInitialized then 0 else 1) ≤ _
      unfold handleHandRaised
      split <;> simp [countUserJoinedMsgs, isUserJoinedMsg, List.filter]
  | heartbeatMsg id =>
      show countUserJoinedMsgs (handleHeartbeat st id).2
        + (if (handleHeartbeat st id).1.isInitialized then 0 else 1) ≤ _
      unfold handleHeartbeat
      split <;> simp [countUserJoinedMsgs]
  | presenceSync l =>
      exact hpot (handlePresenceSync env st l)
        (presenceSyncFold_frame env l (st, [])).2.1
        ((presenceSyncFold_frame env l (st, [])).2.2.trans rfl)
  | presenceJoin k nms =>
      exact hpot (handlePresenceJoin env st k nms)
        (handlePresenceJoin_frame env st k nms).2.1
        (handlePresenceJoin_frame env st k nms).2.2
  | presenceLeave k =>
      exact hpot (handlePresenceLeave st k)
        (handlePresenceLeave_frame st k).2.1 (handlePresenceLeave_frame st k).2.2
  | connStateConnected p => simp [step, countUserJoinedMsgs]
  | connStateFailed p nm =>
      exact hpot (handleConnectionFailure st p nm)
        (handleConnectionFailure_frame st p nm).2.1
        (handleConnectionFailure_frame st p nm).2.2
  | reconnectTimer p nm =>
      exact hpot (createPeerConnection env st p nm true)
        (createPeerConnection_frame env st p nm true).2.2.1
        (createPeerConnection_frame env st p nm true).2.2.2.2
  | raiseHand r => simp [step, raiseHand, countUserJoinedMsgs, isUserJoinedMsg, List.filter]
  | heartbeatTick =>
      show countUserJoinedMsgs (heartbeatTick st).2
        + (if (heartbeatTick st).1.isInitialized then 0 else 1) ≤ _
      unfold heartbeatTick
      split <;> simp [countUserJoinedMsgs, isUserJoinedMsg, List.filter]

theorem run_potential (env : Env) : ∀ (evs : List Event) (st : ManagerState),
    countUserJoinedMsgs (run env st evs).2
      + (if (run env st evs).1.isInitialized then 0 else 1)
      ≤ (if st.isInitialized then 0 else 1) := by
  intro evs
  induction evs with
  | nil =>
      intro st
      simp [run, countUserJoinedMsgs]
  | cons e tl ih =>
      intro st
      show countUserJoinedMsgs ((step env st e).2 ++ (run env (step env st e).1 tl).2)
        + _ ≤ _
      rw [countUJ_append]
      have h1 := step_potential env st e
      have h2 := ih (step env st e).1
      have hr : (run env st (e :: tl)).1 = (run env (step env st e).1 tl).1 := rfl
      rw [hr]
      omega

theorem handleConnectionFailure_attempts (st : ManagerState) (p nm : String)
    (h : st.reconnectAttempts < st.maxReconnectAttempts) :
    (handleConnectionFailure st p nm).1.reconnectAttempts = st.reconnectAttempts + 1
    ∧ (handleConnectionFailure st p nm).1.maxReconnectAttempts
        = st.maxReconnectAttempts := by
  unfold handleConnectionFailure
  rw [if_neg (by omega)]
  split <;> exact ⟨rfl, rfl⟩

theorem peersDelete_singleton_self (pc : PeerConnection) (id : String)
    (h : pc.peerId = id) : peersDelete [pc] id = [] := by
  simp [peersDelete, List.filter, h]

theorem peersUpdate_singleton_self (pc : PeerConnection) (id : String)
    (f : PeerConnection → PeerConnection) (h : pc.peerId = id) :
    peersUpdate [pc] id f = [f pc] := by
  simp [peersUpdate, h]

theorem failStep_below (env : Env) (base : ManagerState) (p nm : String)
    (tr : List Action) (k : Nat) (henv : env.createOfferOk = true)
    (hmax : base.maxReconnectAttempts = 5) (hk : k < 5) :
    failStep env p nm (failState base p nm k, tr)
      = (failState base p nm (k + 1),
         tr ++ [Action.peerClosed p k, Action.scheduleReconnect p nm (k + 1),
                Action.sessionCreated p (k + 1) true,
                Action.sendOffer base.participantId p base.participantName]) := by
  have hpe : (failState base p nm k).peers = [initiatorSession p nm k] := rfl
  have hg : peersGet (failState base p nm k).peers p
      = some (initiatorSession p nm k) := by
    rw [hpe]
    exact peersGet_singleton_self (initiatorSession p nm k) p rfl
  have h1 : step env (failState base p nm k) (Event.connStateFailed p nm)
      = ({ failState base p nm k with
             reconnectAttempts := k + 1
             peers := [] },
         [Action.peerClosed p k, Action.scheduleReconnect p nm (k + 1)]) := by
    show handleConnectionFailure (failState base p nm k) p nm = _
    unfold handleConnectionFailure
    rw [if_neg (show ¬ (failState base p nm k).maxReconnectAttempts
          ≤ (failState base p nm k).reconnectAttempts by
        show ¬ base.maxReconnectAttempts ≤ k
        rw [hmax]
        omega)]
    rw [hg, hpe, peersDelete_singleton_self (initiatorSession p nm k) p rfl]
    rfl
  have h2 : step env ({ failState base p nm k with
             reconnectAttempts := k + 1
             peers := [] } : ManagerState) (Event.reconnectTimer p nm)
      = (failState base p nm (k + 1),
         [Action.sessionCreated p (k + 1) true,
          Action.sendOffer base.participantId p base.participantName]) := by
    show createPeerConnection env _ p nm true = _
    unfold createPeerConnection
    dsimp only [failState, peersGet, List.find?, Option.isSome, List.nil_append]
    rw [if_pos henv]
    rw [peersUpdate_singleton_self (freshSession p nm (k + 1)) p setLocalOffer rfl]
    rfl
  have hgs : (peersGet (failState base p nm k).peers p).isSome = true := by
    rw [hg]
    rfl
  unfold failStep
  dsimp only
  rw [hgs, if_pos rfl, h1]
  dsimp only
  rw [if_pos (show ([Action.peerClosed p k,
        Action.scheduleReconnect p nm (k + 1)].any isScheduleReconnect) = true
      from rfl)]
  rw [h2]
  dsimp only
  rw [List.append_assoc]
  rfl

theorem failStep_at_cap (env : Env) (base : ManagerState) (p nm : String)
    (tr : List Action) (hmax : base.maxReconnectAttempts = 5) :
    failStep env p nm (failState base p nm 5, tr)
      = ({ failState base p nm 5 with peers := [] },
         tr ++ [Action.cbPeerLeft p]) := by
  have hpe : (failState base p nm 5).peers = [initiatorSession p nm 5] := rfl
  have hg : peersGet (failState base p nm 5).peers p
      = some (initiatorSession p nm 5) := by
    rw [hpe]
    exact peersGet_singleton_self (initiatorSession p nm 5) p rfl
  have h1 : step env (failState base p nm 5) (Event.connStateFailed p nm)
      = ({ failState base p nm 5 with peers := [] }, [Action.cbPeerLeft p]) := by
    show handleConnectionFailure (failState base p nm 5) p nm = _
    unfold handleConnectionFailure
    rw [if_pos (show (failState base p nm 5).maxReconnectAttempts
          ≤ (failState base p nm 5).reconnectAttempts by
        show base.maxReconnectAttempts ≤ 5
        rw [hmax])]
    rw [hpe, peersDelete_singleton_self (initiatorSession p nm 5) p rfl]
  have hgs : (peersGet (failState base p nm 5).peers p).isSome = true := by
    rw [hg]
    rfl
  unfold failStep
  dsimp only
  rw [hgs, if_pos rfl, h1]
  dsimp only
  rw [if_neg (show ¬ (([Action.cbPeerLeft p].any isScheduleReconnect) = true)
      from fun hc => Bool.false_ne_true hc)]

theorem failStep_no_session (env : Env) (p nm : String) (S : ManagerState)
    (tr : List Action) (h : peersGet S.peers p = none) :
    failStep env p nm (S, tr) = (S, tr) := by
  unfold failStep
  dsimp only
  rw [h]
  rfl

theorem failInit_eq_failState (mid pid pnm p nm : String) :
    failInit mid pid pnm p nm = failState (failInit mid pid pnm p nm) p nm 0 := rfl

theorem failRun_spec (env : Env) (mid pid pnm p nm : String)
    (henv : env.createOfferOk = true) :
    ∀ k, k ≤ 5 →
      failRun env p nm (failInit mid pid pnm p nm) k
        = (failState (failInit mid pid pnm p nm) p nm k,
           failTrace pid pnm p nm k) := by
  intro k
  induction k with
  | zero => intro _; rfl
  | succ k ih =>
      intro hk5
      have hstep : failRun env p nm (failInit mid pid pnm p nm) (k + 1)
          = failStep env p nm (failRun env p nm (failInit mid pid pnm p nm) k) := rfl
      rw [hstep, ih (by omega)]
      rw [failStep_below env (failInit mid pid pnm p nm) p nm
        (failTrace pid pnm p nm k) k henv rfl (by omega)]
      rfl

theorem failTrace_countReconnects (selfId selfName p nm : String) :
    ∀ k, countReconnects (failTrace selfId selfName p nm k) = k := by
  intro k
  induction k with
  | zero => rfl
  | succ k ih =>
      show countReconnects (failTrace selfId selfName p nm k ++ _) = k + 1
      rw [countReconnects_append, ih]
      rfl

theorem failTrace_no_peerLeft (selfId selfName p nm : String) :
    ∀ k, Action.cbPeerLeft p ∉ failTrace selfId selfName p nm k := by
  intro k
  induction k with
  | zero => simp [failTrace]
  | succ k ih =>
      intro hmem
      rcases List.mem_append.mp hmem with hmem | hmem
      · exact ih hmem
      · simp at hmem

theorem failRun_six (env : Env) (mid pid pnm p nm : String)
    (henv : env.createOfferOk = true) :
    failRun env p nm (failInit mid pid pnm p nm) 6
      = ({ failState (failInit mid pid pnm p nm) p nm 5 with peers := [] },
         failTrace pid pnm p nm 5 ++ [Action.cbPeerLeft p]) := by
  have hstep : failRun env p nm (failInit mid pid pnm p nm) 6
      = failStep env p nm (failRun env p nm (failInit mid pid pnm p nm) 5) := rfl
  rw [hstep, failRun_spec env mid pid pnm p nm henv 5 (by omega)]
  exact failStep_at_cap env (failInit mid pid pnm p nm) p nm
    (failTrace pid pnm p nm 5) rfl

theorem failRun_stable (env : Env) (mid pid pnm p nm : String)
    (henv : env.createOfferOk = true) :
    ∀ m, failRun env p nm (failInit mid pid pnm p nm) (6 + m)
      = failRun env p nm (failInit mid pid pnm p nm) 6 := by
  intro m
  induction m with
  | zero => rfl
  | succ m ih =>
      have hstep : failRun env p nm (failInit mid pid pnm p nm) (6 + (m + 1))
          = failStep env p nm (failRun env p nm (failInit mid pid pnm p nm) (6 + m)) := rfl
      rw [hstep, ih, failRun_six env mid pid pnm p nm henv]
      exact failStep_no_session env p nm _ _ rfl


theorem offerCleanup_some (st : ManagerState) (sender : String)
    (pc : PeerConnection) (h : peersGet st.peers sender = some pc) :
    offerCleanup st sender
      = ({ st with peers := peersDelete st.peers sender },
         [Action.peerClosed sender pc.sessionId]) := by
  unfold offerCleanup
  rw [h]

theorem offerCleanup_self (st : ManagerState) (sender : String) :
    peersGet (offerCleanup st sender).1.peers sender = none := by
  unfold offerCleanup
  split
  · exact peersGet_peersDelete_self st.peers sender
  · rename_i heq
    exact heq

theorem offerCleanup_other_keys (st : ManagerState) (sender q : String)
    (hq : q ≠ sender) :
    peersGet (offerCleanup st sender).1.peers q = peersGet st.peers q := by
  unfold offerCleanup
  split
  · exact peersGet_peersDelete_ne st.peers sender q hq
  · rfl

theorem createPeerConnection_new_responder (env : Env) (st : ManagerState)
    (p nm : String) (h : peersGet st.peers p = none) :
    createPeerConnection env st p nm false
      = ({ st with
            peers := st.peers ++ [freshSession p nm st.nextSessionId]
            nextSessionId := st.nextSessionId + 1 },
         [Action.sessionCreated p st.nextSessionId false]) := by
  unfold createPeerConnection
  rw [if_neg (by rw [h]; exact Bool.false_ne_true)]
  rfl

theorem peersGet_append_fresh_self (ps : List PeerConnection) (p nm : String)
    (sid : Nat) (h : peersGet ps p = none) :
    peersGet (ps ++ [freshSession p nm sid]) p = some (freshSession p nm sid) := by
  rw [peersGet_append, h, peersGet_singleton_self (freshSession p nm sid) p rfl]
  rfl

theorem offerApply_ok (env : Env) (a b : String) (st2 : ManagerState)
    (sender : String) (offer : SessionDesc) (pc : PeerConnection)
    (hok : env.setRemoteOfferOk = true)
    (hs : peersGet st2.peers sender = some pc) :
    offerApply env a b st2 sender offer
      = ({ st2 with peers := peersUpdate st2.peers sender (setNegotiated offer) },
         [Action.sendAnswer a sender b]) := by
  unfold offerApply
  rw [hs, if_pos (show (some pc).isSome = true from rfl), if_pos hok]

theorem offerApply_fail (env : Env) (a b : String) (st2 : ManagerState)
    (sender : String) (offer : SessionDesc) (pc : PeerConnection)
    (hfail : env.setRemoteOfferOk = false)
    (hs : peersGet st2.peers sender = some pc) :
    offerApply env a b st2 sender offer
      = ({ st2 with peers := peersDelete st2.peers sender },
         [Action.logError "Error handling offer"]) := by
  unfold offerApply
  rw [hs, if_pos (show (some pc).isSome = true from rfl),
    if_neg (by rw [hfail]; exact Bool.false_ne_true)]

theorem offerApply_other_keys (env : Env) (a b : String) (st2 : ManagerState)
    (sender : String) (offer : SessionDesc) (q : String) (hq : q ≠ sender) :
    peersGet (offerApply env a b st2 sender offer).1.peers q
      = peersGet st2.peers q := by
  unfold offerApply
  split
  · split
    · exact peersGet_peersUpdate_ne st2.peers sender q _ (setNegotiated_peerId offer) hq
    · exact peersGet_peersDelete_ne st2.peers sender q hq
  · rfl

theorem handleOffer_other_keys (env : Env) (st : ManagerState)
    (sender target name : String) (offer : SessionDesc) (q : String)
    (hq : q ≠ sender) :
    peersGet (handleOffer env st sender target name offer).1.peers q
      = peersGet st.peers q := by
  unfold handleOffer
  split
  · rfl
  · show peersGet (offerApply env st.participantId st.participantName
        (createPeerConnection env (offerCleanup st sender).1 sender name false).1
        sender offer).1.peers q = peersGet st.peers q
    rw [offerApply_other_keys env _ _ _ sender offer q hq,
      createPeerConnection_other_keys env _ sender name false q hq,
      offerCleanup_other_keys st sender q hq]

/-- C2: at most one PeerSession exists per remote participantId at any time
(every event preserves key-uniqueness of the peer map), and delivering a
user-joined announcement or a presence-sync event naming an identity that
already has a session creates no second session and leaves the existing
session unchanged. -/
theorem C2_session_uniqueness (env : Env) (st : ManagerState) (id nm : String)
    (pres : List (String × String)) (pc : PeerConnection)
    (hpc : peersGet st.peers id = some pc) :
    (∀ e, (keysOf st.peers).Nodup → (keysOf (step env st e).1.peers).Nodup)
    ∧ step env st (Event.userJoined id nm) = (st, [])
    ∧ peersGet (step env st (Event.presenceSync pres)).1.peers id = some pc := by
  refine ⟨fun e h => step_nodup env st e h, ?_, ?_⟩
  · show handleUserJoined env st id nm = (st, [])
    unfold handleUserJoined
    split
    · rfl
    · unfold createPeerConnection
      rw [if_pos (by rw [hpc]; rfl)]
  · exact presenceSyncFold_preserves_entry env pres (st, []) id pc hpc

/-- C2 witness: a duplicate user-joined for the already-known peer "p2" is
a no-op and presence sync preserves its session. -/
theorem C2_session_uniqueness_witness :
    peersGet demoState.peers "p2" = some demoSession
    ∧ step envOk demoState (Event.userJoined "p2" "Bob") = (demoState, [])
    ∧ peersGet (step envOk demoState
        (Event.presenceSync [("p2", "Bob"), ("p3", "Carol")])).1.peers "p2"
      = some demoSession :=
  ⟨by decide,
   (C2_session_uniqueness envOk demoState "p2" "Bob"
      [("p2", "Bob"), ("p3", "Carol")] demoSession (by decide)).2.1,
   (C2_session_uniqueness envOk demoState "p2" "Bob"
      [("p2", "Bob"), ("p3", "Carol")] demoSession (by decide)).2.2⟩

/-- C3: after leaveMeeting() the session set is empty, the heartbeat timer
is inactive, every local media track is stopped and the signaling
subscription is cancelled; the action trace is exactly: heartbeat cancelled
first, then the user-left announcement, then every session's data channel
and transport closed, then every local track stopped, then unsubscribed. -/
theorem C3_leaveMeeting_teardown (env : Env) (st : ManagerState)
    (h : st.heartbeatActive = true) :
    (step env st Event.leaveMeeting).1.peers = []
    ∧ (step env st Event.leaveMeeting).1.heartbeatActive = false
    ∧ (step env st Event.leaveMeeting).1.subscribed = false
    ∧ (∀ ts, (step env st Event.leaveMeeting).1.localStream = some ts →
        ∀ t ∈ ts, t.stopped = true)
    ∧ (step env st Event.leaveMeeting).2
        = [Action.heartbeatCancelled, Action.sendUserLeft st.participantId]
            ++ closeActions st.peers
            ++ stopActions (st.localStream.getD [])
            ++ [Action.unsubscribed] := by
  refine ⟨rfl, rfl, rfl, ?_, ?_⟩
  · intro ts hts t ht
    have hls : (step env st Event.leaveMeeting).1.localStream
        = st.localStream.map (fun l => l.map (fun tr => { tr with stopped := true })) := rfl
    rw [hls] at hts
    cases hsrc : st.localStream with
    | none => rw [hsrc] at hts; simp at hts
    | some l =>
        rw [hsrc] at hts
        have hinj : l.map (fun tr => { tr with stopped := true }) = ts :=
          Option.some.inj hts
        rw [← hinj] at ht
        obtain ⟨t0, _, rfl⟩ := List.mem_map.mp ht
        rfl
  · show (leaveMeeting st).2 = _
    unfold leaveMeeting
    rw [h]
    rfl

/-- C3 witness: teardown of a concrete manager with one session, a live
heartbeat and two unstopped local tracks. -/
theorem C3_leaveMeeting_teardown_witness :
    (demoMediaState.heartbeatActive = true)
    ∧ ((step envOk demoMediaState Event.leaveMeeting).1.peers = []
        ∧ (step envOk demoMediaState Event.leaveMeeting).1.heartbeatActive = false
        ∧ (step envOk demoMediaState Event.leaveMeeting).1.subscribed = false
        ∧ (∀ ts, (step envOk demoMediaState Event.leaveMeeting).1.localStream = some ts →
            ∀ t ∈ ts, t.stopped = true)
        ∧ (step envOk demoMediaState Event.leaveMeeting).2
            = [Action.heartbeatCancelled, Action.sendUserLeft demoMediaState.participantId]
                ++ closeActions demoMediaState.peers
                ++ stopActions (demoMediaState.localStream.getD [])
                ++ [Action.unsubscribed]) :=
  ⟨rfl, C3_leaveMeeting_teardown envOk demoMediaState rfl⟩

/-- C4: an ice-candidate addressed to the local participant is dropped
without error and without any state change when no session exists for the
sender or the session's remote description is not yet set, while a
candidate arriving after the remote description is set is applied to that
session. -/
theorem C4_iceCandidate_tolerance (env : Env) (st : ManagerState)
    (sender : String) (c : IceCandidate) :
    (peersGet st.peers sender = none →
      step env st (Event.iceCandidateMsg sender st.participantId c) = (st, []))
    ∧ (∀ pc, peersGet st.peers sender = some pc → pc.remoteDescription = none →
      step env st (Event.iceCandidateMsg sender st.participantId c) = (st, []))
    ∧ (∀ pc, peersGet st.peers sender = some pc → pc.remoteDescription.isSome = true →
      env.addIceCandidateOk = true →
      step env st (Event.iceCandidateMsg sender st.participantId c)
        = ({ st with peers := peersUpdate st.peers sender (addCandidate c) }, [])) := by
  refine ⟨?_, ?_, ?_⟩
  · intro h
    show handleIceCandidate env st sender st.participantId c = _
    unfold handleIceCandidate
    rw [if_neg (fun hc => hc rfl), h]
  · intro pc hpc hrd
    show handleIceCandidate env st sender st.participantId c = _
    unfold handleIceCandidate
    rw [if_neg (fun hc => hc rfl), hpc]
    dsimp only
    rw [hrd]
    rfl
  · intro pc hpc hrd hok
    show handleIceCandidate env st sender st.participantId c = _
    unfold handleIceCandidate
    rw [if_neg (fun hc => hc rfl), hpc]
    dsimp only
    rw [if_pos hrd, if_pos hok]

/-- C4 witness: a candidate for the unknown sender "p9" is dropped with no
state change, and a candidate for "p2" (remote description set) is
applied. -/
theorem C4_iceCandidate_tolerance_witness :
    (peersGet demoState.peers "p9" = none
      ∧ step envOk demoState (Event.iceCandidateMsg "p9" "p1" (IceCandidate.mk "cand1"))
          = (demoState, []))
    ∧ (peersGet demoState.peers "p2" = some demoSession
      ∧ demoSession.remoteDescription.isSome = true
      ∧ step envOk demoState (Event.iceCandidateMsg "p2" "p1" (IceCandidate.mk "cand1"))
          = ({ demoState with
                peers := peersUpdate demoState.peers "p2"
                  (addCandidate (IceCandidate.mk "cand1")) }, [])) :=
  ⟨⟨by decide, (C4_iceCandidate_tolerance envOk demoState "p9" (IceCandidate.mk "cand1")).1 (by decide)⟩,
   ⟨by decide, by decide,
    (C4_iceCandidate_tolerance envOk demoState "p2" (IceCandidate.mk "cand1")).2.2
      demoSession (by decide) (by decide) rfl⟩⟩

/-- C8: the onHandRaised callback fires with (participantId, name, raised)
exactly when the delivered message's participantId differs from the local
participant's, and the local raiseHand broadcast itself fires no local
callback. -/
theorem C8_handRaised_filter (env : Env) (st : ManagerState)
    (id nm : String) (r : Bool) :
    (id ≠ st.participantId →
      step env st (Event.handRaisedMsg id nm r) = (st, [Action.cbHandRaised id nm r]))
    ∧ (id = st.participantId → step env st (Event.handRaisedMsg id nm r) = (st, []))
    ∧ step env st (Event.raiseHand r)
        = (st, [Action.sendHandRaised st.participantId st.participantName r]) := by
  refine ⟨?_, ?_, rfl⟩
  · intro h
    show handleHandRaised st id nm r = _
    unfold handleHandRaised
    rw [if_pos h]
  · intro h
    show handleHandRaised st id nm r = _
    unfold handleHandRaised
    rw [if_neg (fun hne => hne h)]

/-- C8 witness: Bob's hand-raise fires Alice's callback; Alice's own id
fires nothing. -/
theorem C8_handRaised_filter_witness :
    step envOk demoState (Event.handRaisedMsg "p2" "Bob" true)
        = (demoState, [Action.cbHandRaised "p2" "Bob" true])
    ∧ step envOk demoState (Event.handRaisedMsg "p1" "Alice" true) = (demoState, []) :=
  ⟨(C8_handRaised_filter envOk demoState "p2" "Bob" true).1 (by decide),
   (C8_handRaised_filter envOk demoState "p1" "Alice" true).2.1 rfl⟩

/-- C9: the reconnect-attempt counter is one manager-wide value: a
connected transition of any peer resets it to zero, a heartbeat from any
currently-known peer resets it to zero (an unknown peer's heartbeat changes
nothing), and consecutive failures of two distinct peers increment the same
counter twice. -/
theorem C9_shared_reconnect_counter (env : Env) (st : ManagerState)
    (p q nm nm' id : String) :
    (step env st (Event.connStateConnected p)).1.reconnectAttempts = 0
    ∧ ((peersGet st.peers id).isSome = true →
        (step env st (Event.heartbeatMsg id)).1.reconnectAttempts = 0)
    ∧ (peersGet st.peers id = none → step env st (Event.heartbeatMsg id) = (st, []))
    ∧ (p ≠ q → st.reconnectAttempts + 2 ≤ st.maxReconnectAttempts →
        (step env (step env st (Event.connStateFailed p nm)).1
            (Event.connStateFailed q nm')).1.reconnectAttempts
          = st.reconnectAttempts + 2) := by
  refine ⟨rfl, ?_, ?_, ?_⟩
  · intro h
    show (handleHeartbeat st id).1.reconnectAttempts = 0
    unfold handleHeartbeat
    rw [if_pos h]
  · intro h
    show handleHeartbeat st id = (st, [])
    unfold handleHeartbeat
    rw [if_neg (by rw [h]; exact Bool.false_ne_true)]
  · intro _ hcap
    have h1 := handleConnectionFailure_attempts st p nm (by omega)
    have h2 := handleConnectionFailure_attempts
      (handleConnectionFailure st p nm).1 q nm' (by rw [h1.1, h1.2]; omega)
    show (handleConnectionFailure (handleConnectionFailure st p nm).1 q nm').1.reconnectAttempts
      = st.reconnectAttempts + 2
    rw [h2.1, h1.1]

/-- C9 witness: failing "p2" and then the distinct peer "p3" drives the one
shared counter from 0 to 2. -/
theorem C9_shared_reconnect_counter_witness :
    ("p2" : String) ≠ "p3"
    ∧ demoState.reconnectAttempts + 2 ≤ demoState.maxReconnectAttempts
    ∧ (step envOk (step envOk demoState (Event.connStateFailed "p2" "Bob")).1
          (Event.connStateFailed "p3" "Carol")).1.reconnectAttempts
        = demoState.reconnectAttempts + 2 :=
  ⟨by decide, by decide,
   (C9_shared_reconnect_counter envOk demoState "p2" "p3" "Bob" "Carol" "x").2.2.2
     (by decide) (by decide)⟩

/-- C10: joinMeeting is idempotent: over any event sequence from a freshly
constructed manager the user-joined announcement is broadcast at most once,
and any joinMeeting call on an already-initialized manager returns with no
message and no state change. -/
theorem C10_joinMeeting_idempotent (env : Env) (mid pid pnm : String)
    (evs : List Event) (st : ManagerState) :
    countUserJoinedMsgs (run env (mkManager mid pid pnm) evs).2 ≤ 1
    ∧ (st.isInitialized = true → step env st Event.joinMeeting = (st, [])) := by
  constructor
  · have h := run_potential env evs (mkManager mid pid pnm)
    rw [show (if (mkManager mid pid pnm).isInitialized = true then 0 else 1) = 1
        from rfl] at h
    exact le_trans (Nat.le_add_right _ _) h
  · intro h
    show joinMeeting st = (st, [])
    unfold joinMeeting
    rw [if_pos h]

/-- C10 witness: three consecutive joinMeeting calls broadcast user-joined
once, and a joinMeeting on an initialized manager is a no-op. -/
theorem C10_joinMeeting_idempotent_witness :
    countUserJoinedMsgs (run envOk (mkManager "m1" "p1" "Alice")
        [Event.joinMeeting, Event.joinMeeting, Event.joinMeeting]).2 ≤ 1
    ∧ (demoInitState.isInitialized = true
        ∧ step envOk demoInitState Event.joinMeeting = (demoInitState, [])) :=
  ⟨(C10_joinMeeting_idempotent envOk "m1" "p1" "Alice"
      [Event.joinMeeting, Event.joinMeeting, Event.joinMeeting] demoState).1,
   rfl,
   (C10_joinMeeting_idempotent envOk "m1" "p1" "Alice" [] demoInitState).2 rfl⟩

/-- C5: an inbound offer addressed to the local participant from a peer
with an existing PeerSession first closes that session's transport and
removes it, then creates a fresh responder session for the peer and answers
the offer — last-offer-wins: the stored session afterwards is the newly
negotiated responder session. -/
theorem C5_last_offer_wins (env : Env) (st : ManagerState) (sender name : String)
    (offer : SessionDesc) (pc : PeerConnection)
    (hpc : peersGet st.peers sender = some pc)
    (hok : env.setRemoteOfferOk = true) :
    (step env st (Event.offerMsg sender st.participantId name offer)).2
      = [Action.peerClosed sender pc.sessionId,
         Action.sessionCreated sender st.nextSessionId false,
         Action.sendAnswer st.participantId sender st.participantName]
    ∧ peersGet (step env st (Event.offerMsg sender st.participantId name offer)).1.peers sender
        = some (setNegotiated offer (freshSession sender name st.nextSessionId)) := by
  have hclean := offerCleanup_some st sender pc hpc
  have hnone : peersGet ({ st with peers := peersDelete st.peers sender } : ManagerState).peers sender = none :=
    peersGet_peersDelete_self st.peers sender
  have hcr := createPeerConnection_new_responder env
    ({ st with peers := peersDelete st.peers sender }) sender name hnone
  have happ : peersGet (peersDelete st.peers sender
        ++ [freshSession sender name st.nextSessionId]) sender
      = some (freshSession sender name st.nextSessionId) :=
    peersGet_append_fresh_self _ sender name _ (peersGet_peersDelete_self st.peers sender)
  have hmain : handleOffer env st sender st.participantId name offer
      = ({ st with
            peers := peersUpdate
              (peersDelete st.peers sender ++ [freshSession sender name st.nextSessionId])
              sender (setNegotiated offer)
            nextSessionId := st.nextSessionId + 1 },
         [Action.peerClosed sender pc.sessionId,
          Action.sessionCreated sender st.nextSessionId false,
          Action.sendAnswer st.participantId sender st.participantName]) := by
    unfold handleOffer
    rw [if_neg (fun hc => hc rfl)]
    dsimp only
    rw [hclean]
    dsimp only
    rw [hcr]
    dsimp only
    rw [offerApply_ok env st.participantId st.participantName _ sender offer
      (freshSession sender name st.nextSessionId) hok happ]
    rfl
  constructor
  · show (handleOffer env st sender st.participantId name offer).2 = _
    rw [hmain]
  · show peersGet (handleOffer env st sender st.participantId name offer).1.peers sender = _
    rw [hmain]
    dsimp only
    rw [peersGet_peersUpdate_self _ _ _ (setNegotiated_peerId offer), happ]
    rfl

/-- C5 witness: an offer from the already-connected peer "p2" closes the
old session (generation 0) before creating and answering with the new
responder session (generation 1). -/
theorem C5_last_offer_wins_witness :
    peersGet demoState.peers "p2" = some demoSession
    ∧ (step envOk demoState (Event.offerMsg "p2" "p1" "Bob" (SessionDesc.mk "offer2"))).2
        = [Action.peerClosed "p2" demoSession.sessionId,
           Action.sessionCreated "p2" demoState.nextSessionId false,
           Action.sendAnswer "p1" "p2" "Alice"]
    ∧ peersGet (step envOk demoState
          (Event.offerMsg "p2" "p1" "Bob" (SessionDesc.mk "offer2"))).1.peers "p2"
        = some (setNegotiated (SessionDesc.mk "offer2")
            (freshSession "p2" "Bob" demoState.nextSessionId)) :=
  ⟨by decide,
   (C5_last_offer_wins envOk demoState "p2" "Bob" (SessionDesc.mk "offer2")
      demoSession (by decide) rfl).1,
   (C5_last_offer_wins envOk demoState "p2" "Bob" (SessionDesc.mk "offer2")
      demoSession (by decide) rfl).2⟩

/-- C7: media acquisition first requests the high-quality constraint set,
on failure retries exactly once with the conservative fallback constraints
(fixed 640x480 video, echo cancellation and noise suppression only), raises
MediaAccessError if and only if both attempts fail, and never issues more
than two device requests. -/
theorem C7_media_fallback (menv : MediaEnv) (st : ManagerState)
    (video audio : Bool) :
    (initializeMedia menv st video audio).requests.head?
        = some (highQualityConstraints video audio)
    ∧ (∀ s, menv.getUserMedia (highQualityConstraints video audio) = some s →
        (initializeMedia menv st video audio).requests
            = [highQualityConstraints video audio]
        ∧ (initializeMedia menv st video audio).result = Except.ok s)
    ∧ (menv.getUserMedia (highQualityConstraints video audio) = none →
        (initializeMedia menv st video audio).requests
          = [highQualityConstraints video audio, fallbackConstraints video audio])
    ∧ ((initializeMedia menv st video audio).result
          = Except.error MediaError.mediaAccessError
        ↔ menv.getUserMedia (highQualityConstraints video audio) = none
          ∧ menv.getUserMedia (fallbackConstraints video audio) = none)
    ∧ (initializeMedia menv st video audio).requests.length ≤ 2
    ∧ (fallbackConstraints true true).video
        = some { width := NatConstraint.exact 640, height := NatConstraint.exact 480,
                 frameRate := none } := by
  have e1 : ∀ s, menv.getUserMedia (highQualityConstraints video audio) = some s →
      initializeMedia menv st video audio
        = { result := Except.ok s
            requests := [highQualityConstraints video audio]
            state := { st with localStream := some s } } := by
    intro s h1
    unfold initializeMedia
    dsimp only
    rw [h1]
  have e2 : ∀ s, menv.getUserMedia (highQualityConstraints video audio) = none →
      menv.getUserMedia (fallbackConstraints video audio) = some s →
      initializeMedia menv st video audio
        = { result := Except.ok s
            requests := [highQualityConstraints video audio,
                         fallbackConstraints video audio]
            state := { st with localStream := some s } } := by
    intro s h1 h2
    unfold initializeMedia
    dsimp only
    rw [h1]
    dsimp only
    rw [h2]
  have e3 : menv.getUserMedia (highQualityConstraints video audio) = none →
      menv.getUserMedia (fallbackConstraints video audio) = none →
      initializeMedia menv st video audio
        = { result := Except.error MediaError.mediaAccessError
            requests := [highQualityConstraints video audio,
                         fallbackConstraints video audio]
            state := st } := by
    intro h1 h2
    unfold initializeMedia
    dsimp only
    rw [h1]
    dsimp only
    rw [h2]
  cases h1 : menv.getUserMedia (highQualityConstraints video audio) with
  | some s =>
      rw [e1 s h1]
      refine ⟨rfl, ?_, ?_, ?_, by simp, rfl⟩
      · intro s2 h1b
        cases h1b
        exact ⟨rfl, rfl⟩
      · intro h1b
        cases h1b
      · simp
  | none =>
      cases h2 : menv.getUserMedia (fallbackConstraints video audio) with
      | some s =>
          rw [e2 s h1 h2]
          refine ⟨rfl, ?_, fun _ => rfl, ?_, by simp, rfl⟩
          · intro s2 h1b
            cases h1b
          · simp
      | none =>
          rw [e3 h1 h2]
          refine ⟨rfl, ?_, fun _ => rfl, ?_, by simp, rfl⟩
          · intro s2 h1b
            cases h1b
          · simp

/-- C7 witness: a media stack that rejects the high-quality constraints and
grants the fallback yields exactly the two requests in order. -/
theorem C7_media_fallback_witness :
    demoMediaEnv.getUserMedia (highQualityConstraints true true) = none
    ∧ (initializeMedia demoMediaEnv demoState true true).requests
        = [highQualityConstraints true true, fallbackConstraints true true] :=
  ⟨by decide,
   (C7_media_fallback demoMediaEnv demoState true true).2.2.1 (by decide)⟩

/-- C1 counterexample: after exactly 5 consecutive transport failures of
peer "p2" (each scheduled reconnection firing and then failing in turn),
the peer still has a session in the active set — freshly recreated by the
5th reconnection attempt — and the peer-left callback has not fired; this
contradicts the claim that a session whose transport fails 5 consecutive
times is removed and the callback fires. -/
theorem C1_reconnect_claim_counterexample :
    (peersGet (failRun envOk "p2" "Bob"
        (failInit "m1" "p1" "Alice" "p2" "Bob") 5).1.peers "p2").isSome = true
    ∧ Action.cbPeerLeft "p2"
        ∉ (failRun envOk "p2" "Bob" (failInit "m1" "p1" "Alice" "p2" "Bob") 5).2
    ∧ countReconnects
        (failRun envOk "p2" "Bob" (failInit "m1" "p1" "Alice" "p2" "Bob") 5).2 = 5 := by
  rw [failRun_spec envOk "m1" "p1" "Alice" "p2" "Bob" rfl 5 (by omega)]
  exact ⟨by decide, failTrace_no_peerLeft "p1" "Alice" "p2" "Bob" 5,
    failTrace_countReconnects "p1" "Alice" "p2" "Bob" 5⟩

/-- C1 (amended): the automatic reconnection policy is bounded at 5
attempts: over n consecutive transport failures of a peer's session
exactly min n 5 reconnection attempts are scheduled, so a 6th automatic
reconnection attempt never occurs; through 5 consecutive failures the
session survives (recreated by each reconnection), and it is on the 6th
consecutive transport failure — the failure of the 5th reconnection
attempt — that the session is removed from the active set and the
peer-left callback fires. -/
theorem C1_reconnect_bound_amended (env : Env) (mid pid pnm p nm : String)
    (n : Nat) (henv : env.createOfferOk = true) :
    countReconnects (failRun env p nm (failInit mid pid pnm p nm) n).2 = min n 5
    ∧ (Action.cbPeerLeft p ∈ (failRun env p nm (failInit mid pid pnm p nm) n).2
        ↔ 6 ≤ n)
    ∧ (n ≤ 5 → peersGet (failRun env p nm (failInit mid pid pnm p nm) n).1.peers p
        = some (initiatorSession p nm n))
    ∧ (6 ≤ n → (failRun env p nm (failInit mid pid pnm p nm) n).1.peers = []) := by
  by_cases h5 : n ≤ 5
  · rw [failRun_spec env mid pid pnm p nm henv n h5]
    refine ⟨?_, ?_, fun _ => ?_, fun h6 => ((by omega : False)).elim⟩
    · rw [failTrace_countReconnects pid pnm p nm n]
      omega
    · constructor
      · intro hmem
        exact absurd hmem (failTrace_no_peerLeft pid pnm p nm n)
      · intro h6
        exact ((by omega : False)).elim
    · show peersGet [initiatorSession p nm n] p = _
      exact peersGet_singleton_self (initiatorSession p nm n) p rfl
  · obtain ⟨m, rfl⟩ : ∃ m, n = 6 + m := ⟨n - 6, by omega⟩
    rw [failRun_stable env mid pid pnm p nm henv m,
      failRun_six env mid pid pnm p nm henv]
    refine ⟨?_, ?_, fun hle => ((by omega : False)).elim, fun _ => rfl⟩
    · rw [countReconnects_append, failTrace_countReconnects pid pnm p nm 5]
      show 5 + 0 = min (6 + m) 5
      omega
    · constructor
      · intro _
        omega
      · intro _
        exact List.mem_append.mpr (Or.inr (List.mem_singleton.mpr rfl))

/-- C1 witness: the amended bound evaluated at 6 consecutive failures of
peer "p2": 5 scheduled reconnections, peer-left fired, session removed. -/
theorem C1_reconnect_bound_amended_witness :
    envOk.createOfferOk = true
    ∧ (countReconnects (failRun envOk "p2" "Bob"
          (failInit "m1" "p1" "Alice" "p2" "Bob") 6).2 = min 6 5
        ∧ (Action.cbPeerLeft "p2"
            ∈ (failRun envOk "p2" "Bob" (failInit "m1" "p1" "Alice" "p2" "Bob") 6).2
            ↔ 6 ≤ 6)
        ∧ (6 ≤ 5 → peersGet (failRun envOk "p2" "Bob"
              (failInit "m1" "p1" "Alice" "p2" "Bob") 6).1.peers "p2"
            = some (initiatorSession "p2" "Bob" 6))
        ∧ (6 ≤ 6 → (failRun envOk "p2" "Bob"
              (failInit "m1" "p1" "Alice" "p2" "Bob") 6).1.peers = [])) :=
  ⟨rfl, C1_reconnect_bound_amended envOk "m1" "p1" "Alice" "p2" "Bob" 6 rfl⟩

/-- C6 counterexample: with a failing setRemoteDescription, delivering an
answer from the known peer "p2" leaves that session in the active set and
only logs the error, contradicting the claim that an answer-application
failure removes the affected PeerSession. -/
theorem C6_negotiation_claim_counterexample :
    step (Env.mk true true false false) demoState
        (Event.answerMsg "p2" "p1" "Bob" (SessionDesc.mk "ans"))
      = (demoState, [Action.logError "Error handling answer"])
    ∧ (peersGet demoState.peers "p2").isSome = true := by
  exact ⟨by decide, by decide⟩

/-- C6 (amended): negotiation failures on the offer path discard the
affected session (a failed offer creation deletes the just-created
initiator session; a failed inbound-offer application deletes the responder
session), while answer-application and candidate-application failures are
caught and only logged with the session left in the set; in every case no
other peer's session is mutated or removed. -/
theorem C6_negotiation_failure_amended (env : Env) (st : ManagerState)
    (p nm sender q : String) (offer answer : SessionDesc) (c : IceCandidate)
    (pc : PeerConnection) :
    (env.createOfferOk = false → p ≠ st.participantId → peersGet st.peers p = none →
      peersGet (step env st (Event.userJoined p nm)).1.peers p = none
      ∧ (q ≠ p → peersGet (step env st (Event.userJoined p nm)).1.peers q
          = peersGet st.peers q))
    ∧ (env.setRemoteOfferOk = false →
      peersGet (step env st
          (Event.offerMsg sender st.participantId nm offer)).1.peers sender = none
      ∧ (q ≠ sender → peersGet (step env st
            (Event.offerMsg sender st.participantId nm offer)).1.peers q
          = peersGet st.peers q))
    ∧ (env.setRemoteAnswerOk = false → peersGet st.peers sender = some pc →
      step env st (Event.answerMsg sender st.participantId nm answer)
        = (st, [Action.logError "Error handling answer"]))
    ∧ (env.addIceCandidateOk = false → peersGet st.peers sender = some pc →
      pc.remoteDescription.isSome = true →
      step env st (Event.iceCandidateMsg sender st.participantId c)
        = (st, [Action.logError "Error adding ICE candidate"])) := by
  refine ⟨?_, ?_, ?_, ?_⟩
  · intro hfail hne hnone
    constructor
    · show peersGet (handleUserJoined env st p nm).1.peers p = none
      unfold handleUserJoined
      rw [if_neg hne]
      unfold createPeerConnection
      rw [if_neg (by rw [hnone]; exact Bool.false_ne_true),
        if_pos rfl, if_neg (by rw [hfail]; exact Bool.false_ne_true)]
      exact peersGet_peersDelete_self _ p
    · intro hq
      show peersGet (handleUserJoined env st p nm).1.peers q = peersGet st.peers q
      unfold handleUserJoined
      rw [if_neg hne]
      exact createPeerConnection_other_keys env st p nm true q hq
  · intro hfail
    constructor
    · have hc2 := createPeerConnection_new_responder env
        (offerCleanup st sender).1 sender nm (offerCleanup_self st sender)
      have happ2 : peersGet ((offerCleanup st sender).1.peers
            ++ [freshSession sender nm (offerCleanup st sender).1.nextSessionId]) sender
          = some (freshSession sender nm (offerCleanup st sender).1.nextSessionId) :=
        peersGet_append_fresh_self _ sender nm _ (offerCleanup_self st sender)
      show peersGet (handleOffer env st sender st.participantId nm offer).1.peers sender
        = none
      unfold handleOffer
      rw [if_neg (fun hc => hc rfl)]
      dsimp only
      rw [hc2]
      dsimp only
      rw [offerApply_fail env st.participantId st.participantName _ sender offer
        (freshSession sender nm (offerCleanup st sender).1.nextSessionId) hfail happ2]
      exact peersGet_peersDelete_self _ sender
    · intro hq
      exact handleOffer_other_keys env st sender st.participantId nm offer q hq
  · intro hfail hpc
    show handleAnswer env st sender st.participantId answer = _
    unfold handleAnswer
    rw [if_neg (fun hc => hc rfl), hpc]
    dsimp only
    rw [if_neg (by rw [hfail]; exact Bool.false_ne_true)]
  · intro hfail hpc hrd
    show handleIceCandidate env st sender st.participantId c = _
    unfold handleIceCandidate
    rw [if_neg (fun hc => hc rfl), hpc]
    dsimp only
    rw [if_pos hrd, if_neg (by rw [hfail]; exact Bool.false_ne_true)]

/-- C6 witness: with every negotiation call failing, a user-joined for the
unknown peer "p9" leaves no session behind, an offer from "p2" removes and
does not re-store its session, while an answer and a candidate failure from
"p2" leave the state unchanged and only log. -/
theorem C6_negotiation_failure_amended_witness :
    peersGet (step (Env.mk false false false false) demoState
        (Event.userJoined "p9" "Bob")).1.peers "p9" = none
    ∧ peersGet (step (Env.mk false false false false) demoState
        (Event.offerMsg "p2" "p1" "Bob" (SessionDesc.mk "o"))).1.peers "p2" = none
    ∧ step (Env.mk false false false false) demoState
        (Event.answerMsg "p2" "p1" "Bob" (SessionDesc.mk "a"))
      = (demoState, [Action.logError "Error handling answer"])
    ∧ step (Env.mk false false false false) demoState
        (Event.iceCandidateMsg "p2" "p1" (IceCandidate.mk "c"))
      = (demoState, [Action.logError "Error adding ICE candidate"]) :=
  ⟨((C6_negotiation_failure_amended (Env.mk false false false false) demoState
      "p9" "Bob" "p2" "p3" (SessionDesc.mk "o") (SessionDesc.mk "a")
      (IceCandidate.mk "c") demoSession).1 rfl (by decide) (by decide)).1,
   ((C6_negotiation_failure_amended (Env.mk false false false false) demoState
      "p9" "Bob" "p2" "p3" (SessionDesc.mk "o") (SessionDesc.mk "a")
      (IceCandidate.mk "c") demoSession).2.1 rfl).1,
   (C6_negotiation_failure_amended (Env.mk false false false false) demoState
      "p9" "Bob" "p2" "p3" (SessionDesc.mk "o") (SessionDesc.mk "a")
      (IceCandidate.mk "c") demoSession).2.2.1 rfl (by decide),
   (C6_negotiation_failure_amended (Env.mk false false false false) demoState
      "p9" "Bob" "p2" "p3" (SessionDesc.mk "o") (SessionDesc.mk "a")
      (IceCandidate.mk "c") demoSession).2.2.2 rfl (by decide) (by decide)⟩

end WebRTC
